import Mathlib

set_option maxRecDepth 4000
set_option linter.unusedVariables false

/-!
Verification development for the Unity Editor log parsing engine
(src/log_parser.py of UnityLogAnalyzer).  The Python code is shallowly
embedded: lines are lists of characters, each regular-expression pattern of
the source becomes an explicit matching function with Python search and
backtracking semantics, the single-pass orchestrator of parse_log_file
becomes a pure step function threading explicit state, and the SQLite
insertions become appends to per-table lists of records.  Lines are modelled
without their trailing newline character; every pattern of the source
behaves identically on both representations.
-/

namespace ULog

/-- Lines and captured fragments are lists of characters. -/
abbrev Str := List Char

/-- Character list of a string literal. -/
def strOf (s : String) : Str := s.data

/-- The ASCII apostrophe character used in artifact-id log lines. -/
def quoteChar : Char := Char.ofNat 39

/-- The ASCII opening curly brace. -/
def lbrace : Char := Char.ofNat 123

/-- The ASCII closing curly brace. -/
def rbrace : Char := Char.ofNat 125

/-- Python regex class for a lowercase hex character, as in the guid and
artifact groups a-f0-9 of the source patterns. -/
def isHexLower (c : Char) : Bool := c.isDigit || ('a' ≤ c && c ≤ 'f')

/-- Python str.isspace class used by the regex whitespace class. -/
def isPySpace (c : Char) : Bool :=
  c = ' ' || c = '\t' || c = '\n' || c = '\r' || c = Char.ofNat 11 || c = Char.ofNat 12

/-- Regex word class A-Za-z0-9 underscore (ASCII fragment). -/
def isWordChar (c : Char) : Bool := c.isAlpha || c.isDigit || c = '_'

/-- Class A-Za-z0-9 used by the pending-import importer token group. -/
def isAlnumChar (c : Char) : Bool := c.isAlpha || c.isDigit

/-- Class A-Za-z0-9 or hyphen used by the worker importer-type line. -/
def isAlnumDash (c : Char) : Bool := c.isAlpha || c.isDigit || c = '-'

/-- Class of digits and dots, the regex group for seconds values. -/
def isDigitDot (c : Char) : Bool := c.isDigit || c = '.'

/-- Value of a nonempty digit string, as Python int. -/
def digitsToNat (s : Str) : Nat :=
  s.foldl (fun a c => a * 10 + (c.toNat - 48)) 0

/-- Value of a digit string as a rational. -/
def digitsToRat (s : Str) : ℚ := (digitsToNat s : ℚ)

/-- A natural number as a rational, built with mkRat so that kernel
reduction is possible (the Rat field operations are irreducible); equal in
value to the numeric cast, see natQ_eq below. -/
def natQ (n : Nat) : ℚ := mkRat n 1

/-- Multiplication of a rational by 1000, the seconds to milliseconds
conversion; built with mkRat for kernel reduction, equal in value to
q * 1000, see qMul1000_eq below. -/
def qMul1000 (q : ℚ) : ℚ := mkRat (q.num * 1000) q.den

/-- Python float() applied to a string drawn from the digits-and-dots regex
class: at most one dot and at least one digit.  The source calls float()
unconditionally on such captures; an invalid capture would raise there, and
is modelled as a failed match here. -/
def floatVal? (s : Str) : Option ℚ :=
  let intPart := s.takeWhile Char.isDigit
  let rest := s.dropWhile Char.isDigit
  match rest with
  | [] => if intPart = [] then none else some (natQ (digitsToNat intPart))
  | c :: fracPart =>
    if c = '.' ∧ fracPart.all Char.isDigit ∧ (intPart ≠ [] ∨ fracPart ≠ []) then
      some (mkRat (digitsToNat intPart * 10 ^ fracPart.length + digitsToNat fracPart)
        (10 ^ fracPart.length))
    else none

/-- Consume an exact literal at the head of the input, returning the rest. -/
def dropLit : Str → Str → Option Str
  | [], s => some s
  | _ :: _, [] => none
  | c :: cs, d :: ds => if c = d then dropLit cs ds else none

/-- Greedy plus over a character class: maximal nonempty run. -/
def run1 (p : Char → Bool) (s : Str) : Option (Str × Str) :=
  match s.span p with
  | (a, b) => if a = [] then none else some (a, b)

/-- A lazy nonempty group followed by continuation k: Python plus-question
semantics, shortest split whose remainder satisfies k. -/
def lazySplit (k : Str → Option β) : Str → Option (Str × β)
  | [] => none
  | c :: rest =>
    match k rest with
    | some b => some ([c], b)
    | none =>
      match lazySplit k rest with
      | some (p, b) => some (c :: p, b)
      | none => none

/-- Python re.search: try the core matcher at each start position from the
left, first success wins. -/
def search (m : Str → Option β) : Str → Option β
  | [] => m []
  | c :: rest =>
    match m (c :: rest) with
    | some b => some b
    | none => search m rest

/-- Rightmost-first position search: semantics of a greedy dot-star before
the matcher m, which backtracks from the longest gap. -/
def searchR (m : Str → Option β) : Str → Option β
  | [] => m []
  | c :: rest =>
    match searchR m rest with
    | some b => some b
    | none => m (c :: rest)

/-- Python substring containment, the in operator on str. -/
def hasSub (needle hay : Str) : Bool :=
  needle.isPrefixOf hay ||
    match hay with
    | [] => false
    | _ :: t => hasSub needle t

/-- Python str.split on a single separator character (keeps empty parts;
the result is always nonempty). -/
def splitChar (sep : Char) : Str → List Str
  | [] => [[]]
  | c :: rest =>
    let r := splitChar sep rest
    if c = sep then [] :: r
    else
      match r with
      | h :: t => (c :: h) :: t
      | [] => [[c]]

/-- Last element of a Python split result: path.split with index -1. -/
def pySplitLast (p : Str) : Str := (splitChar '/' p).getLastD []

/-- pathlib PurePath.name: last path component, ignoring empty components
and single-dot components. -/
def pyName (p : Str) : Str :=
  ((splitChar '/' p).filter (fun s => s ≠ [] ∧ s ≠ ['.'])).getLastD []

/-- Index of the last dot of a name, pathlib str.rfind. -/
def lastDotIdx (n : Str) : Option Nat :=
  (List.range n.length).foldl
    (fun acc i => if n.getD i ' ' = '.' then some i else acc) none

/-- pathlib PurePath.suffix: the final extension of the name, empty when the
dot is leading, trailing or absent. -/
def pySuffix (p : Str) : Str :=
  let n := pyName p
  match lastDotIdx n with
  | none => []
  | some i => if 0 < i ∧ i < n.length - 1 then n.drop i else []

/-- Python str.lower for the ASCII fragment used by asset paths. -/
def pyLower (s : Str) : Str := s.map Char.toLower

end ULog

namespace ULog

/-!
## Pattern matchers

Each function embeds one regular expression of src/log_parser.py, with
Python semantics: re.match is anchored at the start, re.search tries start
positions from the left, greedy classes take maximal runs (no useful
backtracking arises because each following literal starts outside the
class), and lazy groups take the shortest split whose continuation matches.
-/

/-- Orchestrator worker prefix, re.match of Worker digits in brackets then
whitespace then a nonempty rest (line 800).  The greedy whitespace run
yields its last character to the final group when nothing follows it. -/
def matchWorkerPrefix (line : Str) : Option (Nat × Str) :=
  match dropLit (strOf "[Worker") line with
  | none => none
  | some r1 =>
    match run1 Char.isDigit r1 with
    | none => none
    | some (ds, r2) =>
      match dropLit (strOf "]") r2 with
      | none => none
      | some r3 =>
        match r3.span isPySpace with
        | (ws, r4) =>
          if ws = [] then none
          else if r4 ≠ [] then some (digitsToNat ds, r4)
          else if ws.length ≥ 2 then some (digitsToNat ds, [ws.getLastD ' '])
          else none

/-- Continuation after the lazily captured path of the worker start pattern
(lines 317 and 807): literal using Guid, a hex group, a closing paren, then
only whitespace to the end of the line. -/
def guidEndTail (s : Str) : Option Str :=
  match dropLit (strOf " using Guid(") s with
  | none => none
  | some r1 =>
    match run1 isHexLower r1 with
    | none => none
    | some (g, r2) =>
      match dropLit (strOf ")") r2 with
      | none => none
      | some r3 => if r3.all isPySpace then some g else none

/-- Worker-format start pattern at a fixed position. -/
def startEndCore (s : Str) : Option (Str × Str) :=
  match dropLit (strOf "Start importing ") s with
  | none => none
  | some r => lazySplit guidEndTail r

/-- re.search of the worker-format start pattern: Start importing, lazy
path, using Guid hex, end of line. -/
def matchStartEnd (s : Str) : Option (Str × Str) := search startEndCore s

/-- Worker importer-type line, re.match of a parenthesised alnum-dash token
followed only by whitespace (line 825). -/
def matchWorkerImporter (s : Str) : Option Str := do
  let r1 ← dropLit (strOf "(") s
  let (tok, r2) ← run1 isAlnumDash r1
  let r3 ← dropLit (strOf ")") r2
  if r3.all isPySpace then some tok else none

/-- Artifact completion pattern at a fixed position (lines 836 and 919):
arrow, artifact id literal, quoted hex group, then in, a seconds number,
the word seconds. -/
def artifactCore (s : Str) : Option (Str × ℚ) :=
  match dropLit (strOf "-> (artifact id: " ++ [quoteChar]) s with
  | none => none
  | some r1 =>
    match run1 isHexLower r1 with
    | none => none
    | some (aid, r2) =>
      match dropLit ([quoteChar] ++ strOf ") in ") r2 with
      | none => none
      | some r3 =>
        match run1 isDigitDot r3 with
        | none => none
        | some (num, r4) =>
          match floatVal? num with
          | none => none
          | some t =>
            match dropLit (strOf " seconds") r4 with
            | none => none
            | some _ => some (aid, t)

/-- re.search of the artifact completion pattern. -/
def matchArtifact (s : Str) : Option (Str × ℚ) := search artifactCore s

/-- Tail of the primary import pattern: in, seconds number, the word
seconds (unanchored afterwards). -/
def inSecondsTail (s : Str) : Option ℚ := do
  let r1 ← dropLit (strOf " in ") s
  let (num, r2) ← run1 isDigitDot r1
  let t ← floatVal? num
  let _ ← dropLit (strOf " seconds") r2
  some t

/-- Optional artifact group then the seconds tail, tried with the group
present first (greedy option), as in the primary pattern of line 312. -/
def artifactOptTail (s : Str) : Option (Option Str × ℚ) :=
  match (do
    let r1 ← dropLit (strOf " -> (artifact id: " ++ [quoteChar]) s
    let (aid, r2) ← run1 isHexLower r1
    let r3 ← dropLit ([quoteChar] ++ strOf ")") r2
    let t ← inSecondsTail r3
    some (aid, t) : Option (Str × ℚ)) with
  | some (aid, t) => some (some aid, t)
  | none =>
    match inSecondsTail s with
    | some t => some (none, t)
    | none => none

/-- Captures of the primary import pattern. -/
structure PrimaryMatch where
  path : Str
  guid : Str
  importerRaw : Str
  artifactId : Option Str
  seconds : ℚ
deriving Repr, DecidableEq

/-- Primary import pattern at a fixed position (line 312): Start importing,
lazy path, using Guid hex, space, lazy importer text, optional artifact
group, in N seconds. -/
def primaryCore (s : Str) : Option PrimaryMatch := do
  let r ← dropLit (strOf "Start importing ") s
  let (path, (g, imp, aid, t)) ← lazySplit (fun s1 => do
    let r1 ← dropLit (strOf " using Guid(") s1
    let (g, r2) ← run1 isHexLower r1
    let r3 ← dropLit (strOf ") ") r2
    let (imp, (aid, t)) ← lazySplit artifactOptTail r3
    some (g, imp, aid, t)) r
  some ⟨path, g, imp, aid, t⟩

/-- re.search of the primary import pattern. -/
def matchPrimary (s : Str) : Option PrimaryMatch := search primaryCore s

/-- Fallback pattern 2 of the import parser (line 387): Start importing,
lazy path, using Guid hex, a parenthesised word-class importer token. -/
def fallback2Core (s : Str) : Option (Str × Str × Str) := do
  let r ← dropLit (strOf "Start importing ") s
  let (path, (g, imp)) ← lazySplit (fun s1 => do
    let r1 ← dropLit (strOf " using Guid(") s1
    let (g, r2) ← run1 isHexLower r1
    let r3 ← dropLit (strOf ") (") r2
    let (imp, r4) ← run1 isWordChar r3
    let _ ← dropLit (strOf ")") r4
    some (g, imp)) r
  some (path, g, imp)

/-- re.search of fallback pattern 2. -/
def matchFallback2 (s : Str) : Option (Str × Str × Str) := search fallback2Core s

/-- Pending-import start pattern of the orchestrator (line 959): like
fallback pattern 2 but with an alnum importer token (no underscore). -/
def pendingStartCore (s : Str) : Option (Str × Str × Str) := do
  let r ← dropLit (strOf "Start importing ") s
  let (path, (g, imp)) ← lazySplit (fun s1 => do
    let r1 ← dropLit (strOf " using Guid(") s1
    let (g, r2) ← run1 isHexLower r1
    let r3 ← dropLit (strOf ") (") r2
    let (imp, r4) ← run1 isAlnumChar r3
    let _ ← dropLit (strOf ")") r4
    some (g, imp)) r
  some (path, g, imp)

/-- re.search of the pending-import start pattern. -/
def matchPendingStart (s : Str) : Option (Str × Str × Str) := search pendingStartCore s

/-- Pipeline refresh header pattern at a fixed position (line 479): header
literal with hex id, Total seconds number, Initiated by, then the lazy
reason group anchored to the end of the line (hence the whole rest,
required nonempty). -/
def pipelineHeaderCore (s : Str) : Option (Str × ℚ × Str) :=
  match dropLit (strOf "Asset Pipeline Refresh (id=") s with
  | none => none
  | some r1 =>
    match run1 isHexLower r1 with
    | none => none
    | some (rid, r2) =>
      match dropLit (strOf "): Total: ") r2 with
      | none => none
      | some r3 =>
        match run1 isDigitDot r3 with
        | none => none
        | some (num, r4) =>
          match floatVal? num with
          | none => none
          | some t =>
            match dropLit (strOf " seconds - Initiated by ") r4 with
            | none => none
            | some r5 => if r5 = [] then none else some (rid, t, r5)

/-- re.search of the pipeline refresh header pattern. -/
def matchPipelineHeader (s : Str) : Option (Str × ℚ × Str) := search pipelineHeaderCore s

/-- Imports summary pattern (line 495): total digits, greedy gap, actual
digits; the greedy gap binds the rightmost actual occurrence. -/
def matchImportsSummary (s : Str) : Option (Nat × Nat) :=
  search (fun s1 => do
    let r1 ← dropLit (strOf "total=") s1
    let (d1, r2) ← run1 Char.isDigit r1
    let d2 ← searchR (fun s2 => do
      let r3 ← dropLit (strOf "actual=") s2
      let (d2, _) ← run1 Char.isDigit r3
      some d2) r2
    some (digitsToNat d1, digitsToNat d2)) s

/-- Managed and native millisecond pattern of the asset-db process and
callback summary lines (lines 502 and 508). -/
def matchManagedNative (s : Str) : Option (Nat × Nat) :=
  search (fun s1 => do
    let r1 ← dropLit (strOf "managed=") s1
    let (d1, r2) ← run1 Char.isDigit r1
    let r3 := (r2.span isPySpace).2
    let r4 ← dropLit (strOf "ms") r3
    let d2 ← searchR (fun s2 => do
      let r5 ← dropLit (strOf "native=") s2
      let (d2, r6) ← run1 Char.isDigit r5
      let r7 := (r6.span isPySpace).2
      let _ ← dropLit (strOf "ms") r7
      some d2) r4
    some (digitsToNat d1, digitsToNat d2)) s

/-- Scripting summary pattern (line 514): four numeric fields chained by
greedy gaps, later fields binding rightmost-first. -/
def matchScriptingSummary (s : Str) : Option (Nat × Nat × Nat × Nat) :=
  search (fun s1 => do
    let r1 ← dropLit (strOf "domain reloads=") s1
    let (d1, r2) ← run1 Char.isDigit r1
    let rest ← searchR (fun s2 => do
      let r3 ← dropLit (strOf "domain reload time=") s2
      let (d2, r4) ← run1 Char.isDigit r3
      let r5 := (r4.span isPySpace).2
      let r6 ← dropLit (strOf "ms") r5
      let rest2 ← searchR (fun s3 => do
        let r7 ← dropLit (strOf "compile time=") s3
        let (d3, r8) ← run1 Char.isDigit r7
        let r9 := (r8.span isPySpace).2
        let r10 ← dropLit (strOf "ms") r9
        let d4 ← searchR (fun s4 => do
          let r11 ← dropLit (strOf "other=") s4
          let (d4, r12) ← run1 Char.isDigit r11
          let r13 := (r12.span isPySpace).2
          let _ ← dropLit (strOf "ms") r13
          some d4) r10
        some (d3, d4)) r6
      some (d2, rest2)) r2
    let (d2, d3, d4) := rest
    some (digitsToNat d1, digitsToNat d2, digitsToNat d3, digitsToNat d4)) s

/-- Tail of a domain reload step: space, open paren, digits, ms, close
paren (unanchored afterwards). -/
def drTail (s : Str) : Option Nat := do
  let r1 ← dropLit (strOf " (") s
  let (ds, r2) ← run1 Char.isDigit r1
  let _ ← dropLit (strOf "ms)") r2
  some (digitsToNat ds)

/-- Backtracking over the greedy leading-tab group of the step pattern of
line 537: try the maximal tab count first, returning tabs to the lazy name
group one at a time. -/
def drStepTry : Nat → Str → Option (Nat × Str × Nat)
  | n, r =>
    match lazySplit drTail r with
    | some (nm, ms) => some (n, nm, ms)
    | none =>
      match n with
      | 0 => none
      | m + 1 => drStepTry m ('\t' :: r)

/-- Domain reload step pattern, re.match of tabs, lazy name, duration
(line 537). -/
def matchDrStep (s : Str) : Option (Nat × Str × Nat) :=
  let tabs := s.takeWhile (fun c => c = '\t')
  drStepTry tabs.length (s.drop tabs.length)

/-- Orchestrator continuation test of line 986: like the step pattern but
requiring at least one leading tab. -/
def drContinues (s : Str) : Bool :=
  match matchDrStep s with
  | some (n, _, _) => decide (1 ≤ n)
  | none => false

/-- Script compilation pattern (line 573): Processing assembly, lazy path,
defines and references counts. -/
def matchScriptComp (s : Str) : Option (Str × Nat × Nat) :=
  search (fun s1 => do
    let r ← dropLit (strOf "Processing assembly ") s1
    let (path, (d, rf)) ← lazySplit (fun s2 => do
      let r1 ← dropLit (strOf ", with ") s2
      let (d, r2) ← run1 Char.isDigit r1
      let r3 ← dropLit (strOf " defines and ") r2
      let (rf, r4) ← run1 Char.isDigit r3
      let _ ← dropLit (strOf " references") r4
      some (d, rf)) r
    some (path, digitsToNat d, digitsToNat rf)) s

end ULog

namespace ULog

/-- Python str.strip with no argument: remove leading and trailing
whitespace. -/
def pyStrip (s : Str) : Str :=
  ((s.dropWhile isPySpace).reverse.dropWhile isPySpace).reverse

/-- Python str.strip with a character set argument: remove leading and
trailing characters drawn from the set. -/
def stripChars (cs : List Char) (s : Str) : Str :=
  ((s.dropWhile (· ∈ cs)).reverse.dropWhile (· ∈ cs)).reverse

/-- Index of the last occurrence of a character. -/
def lastIdxOf (c : Char) (s : Str) : Option Nat :=
  (List.range s.length).foldl
    (fun acc i => if s.getD i ' ' = c then some i else acc) none

/-- Captures of the generic operation pattern of line 609. -/
structure OpMatch where
  opType : Str
  opName : Str
  seconds : ℚ
  memMb : Option Nat
deriving Repr, DecidableEq

/-- Memory tail of the operation pattern: the optional greedy group binds
the rightmost current-mem occurrence, or nothing. -/
def opMemCore (s2 : Str) : Option Nat := do
  let r18 ← dropLit (strOf "current mem:") s2
  let r19 := (r18.span isPySpace).2
  let (ds, r20) ← run1 Char.isDigit r19
  let r21 := (r20.span isPySpace).2
  let _ ← dropLit (strOf "MB") r21
  some (digitsToNat ds)

/-- Continuation after the lazily captured operation name: closing
double-hash and quote, took, a seconds number, sec, optional memory. -/
def opNameTail (s1 : Str) : Option (ℚ × Option Nat) := do
  let r8 := (s1.span isPySpace).2
  let r9 ← dropLit (strOf "##") r8
  let r10 := (r9.span isPySpace).2
  let r11 ← dropLit (strOf "\"") r10
  let (w1, r12) ← run1 isPySpace r11
  let _ := w1
  let r13 ← dropLit (strOf "took") r12
  let (w2, r14) ← run1 isPySpace r13
  let _ := w2
  let (num, r15) ← run1 isDigitDot r14
  let t ← floatVal? num
  let (w3, r16) ← run1 isPySpace r15
  let _ := w3
  let r17 ← dropLit (strOf "sec") r16
  some (t, searchR opMemCore r17)

/-- Generic operation pattern at a fixed position (line 609): a non-colon
group, colon, quoted double-hash delimited lazy name, took, a seconds
number, sec, and an optional greedy memory tail. -/
def opCore (s : Str) : Option OpMatch := do
  let (g1, r1) ← run1 (fun c => c ≠ ':') s
  let r2 ← dropLit (strOf ":") r1
  let r3 := (r2.span isPySpace).2
  let r4 ← dropLit (strOf "\"") r3
  let r5 := (r4.span isPySpace).2
  let r6 ← dropLit (strOf "##") r5
  let r7 := (r6.span isPySpace).2
  let (g2, tm) ← lazySplit opNameTail r7
  some { opType := g1, opName := g2, seconds := tm.1, memMb := tm.2 }

/-- re.search of the generic operation pattern. -/
def matchOperation (s : Str) : Option OpMatch := search opCore s

/-- Tail of the Tundra pattern from the opening paren of the duration. -/
def tundraParenTail (s : Str) : Option (ℚ × Nat × Nat) := do
  let r6 ← dropLit (strOf "(") s
  let (num, r7) ← run1 isDigitDot r6
  let t ← floatVal? num
  let (w3, r8) ← run1 isPySpace r7
  let _ := w3
  let r9 ← (dropLit (strOf "seconds),") r8 <|> dropLit (strOf "second),") r8)
  let (w4, r10) ← run1 isPySpace r9
  let _ := w4
  let (d1, r11) ← run1 Char.isDigit r10
  let (w5, r12) ← run1 isPySpace r11
  let _ := w5
  let r13 ← (dropLit (strOf "items") r12 <|> dropLit (strOf "item") r12)
  let (w6, r14) ← run1 isPySpace r13
  let _ := w6
  let r15 ← dropLit (strOf "updated,") r14
  let (w7, r16) ← run1 isPySpace r15
  let _ := w7
  let (d2, r17) ← run1 Char.isDigit r16
  let (w8, r18) ← run1 isPySpace r17
  let _ := w8
  let _ ← dropLit (strOf "evaluated") r18
  some (t, digitsToNat d1, digitsToNat d2)

/-- Tundra build-system pattern at a fixed position (line 628): three
stars, Tundra, a greedy non-paren name group that yields one trailing
whitespace character to the following whitespace-plus, then the duration
and counts. -/
def tundraCore (s : Str) : Option (Str × ℚ × Nat × Nat) := do
  let r1 ← dropLit (strOf "***") s
  let (w1, r2) ← run1 isPySpace r1
  let _ := w1
  let r3 ← dropLit (strOf "Tundra") r2
  let (w2, r4) ← run1 isPySpace r3
  let _ := w2
  let (raw, r5) ← run1 (fun c => c ≠ '(') r4
  let g1 ← (match raw.getLast? with
    | some c => if isPySpace c ∧ raw.length ≥ 2 then some raw.dropLast else none
    | none => none)
  let tdd ← tundraParenTail r5
  some (g1, tdd)

/-- re.search of the Tundra pattern. -/
def matchTundra (s : Str) : Option (Str × ℚ × Nat × Nat) := search tundraCore s

/-- Telemetry payload pattern of line 590: the utp marker, then a braced
group whose greedy interior extends to the last closing brace of the line,
with at least one character inside. -/
def telemetryCore (s : Str) : Option Str := do
  let r1 ← dropLit (strOf "##utp:") s
  match r1 with
  | [] => none
  | b :: rest =>
    if b = lbrace then
      match lastIdxOf rbrace rest with
      | some i => if 1 ≤ i then some (lbrace :: rest.take (i + 1)) else none
      | none => none
    else none

/-- re.search of the telemetry payload pattern. -/
def matchTelemetry (s : Str) : Option Str := search telemetryCore s

/-- JSON values, for the telemetry payload parsed by json.loads. -/
inductive Json where
  | null : Json
  | bool (b : Bool) : Json
  | num (q : ℚ) : Json
  | str (s : Str) : Json
  | arr (xs : List Json) : Json
  | obj (kvs : List (Str × Json)) : Json
deriving Repr, Inhabited

/-- JSON whitespace. -/
def isJsonWs (c : Char) : Bool := c = ' ' || c = '\t' || c = '\n' || c = '\r'

/-- One JSON string body after the opening double quote, with escapes. -/
def parseJsonStr : Nat → Str → Option (Str × Str)
  | 0, _ => none
  | _, [] => none
  | fuel + 1, c :: rest =>
    if c = '"' then some ([], rest)
    else if c = '\\' then
      match rest with
      | [] => none
      | e :: rest2 =>
        let cont (ch : Char) (r : Str) : Option (Str × Str) :=
          match parseJsonStr fuel r with
          | some (s, r2) => some (ch :: s, r2)
          | none => none
        if e = '"' then cont '"' rest2
        else if e = '\\' then cont '\\' rest2
        else if e = '/' then cont '/' rest2
        else if e = 'b' then cont (Char.ofNat 8) rest2
        else if e = 'f' then cont (Char.ofNat 12) rest2
        else if e = 'n' then cont '\n' rest2
        else if e = 'r' then cont '\r' rest2
        else if e = 't' then cont '\t' rest2
        else if e = 'u' then
          match rest2 with
          | h1 :: h2 :: h3 :: h4 :: rest3 =>
            let hv (c : Char) : Option Nat :=
              if c.isDigit then some (c.toNat - 48)
              else if 'a' ≤ c ∧ c ≤ 'f' then some (c.toNat - 87)
              else if 'A' ≤ c ∧ c ≤ 'F' then some (c.toNat - 55)
              else none
            match hv h1, hv h2, hv h3, hv h4 with
            | some a, some b, some c2, some d =>
              cont (Char.ofNat (((a * 16 + b) * 16 + c2) * 16 + d)) rest3
            | _, _, _, _ => none
          | _ => none
        else none
    else if c.toNat < 32 then none
    else
      match parseJsonStr fuel rest with
      | some (s, r2) => some (c :: s, r2)
      | none => none

/-- One JSON number: optional minus, integer part without leading zeros,
optional fraction, optional exponent. -/
def parseJsonNum (s : Str) : Option (ℚ × Str) := do
  let (neg, s1) :=
    match s with
    | '-' :: r => (true, r)
    | _ => (false, s)
  let (ip, s2) ← run1 Char.isDigit s1
  let okInt : Bool :=
    match ip with
    | ['0'] => true
    | '0' :: _ => false
    | _ => true
  if ¬ okInt then none else
  let (fv, s3) :=
    match s2 with
    | '.' :: r =>
      match run1 Char.isDigit r with
      | some (fp, r2) =>
        (some (digitsToRat fp / (10 : ℚ) ^ fp.length), r2)
      | none => (none, s2)
    | _ => (some 0, s2)
  match fv with
  | none => none
  | some fq =>
    let base : ℚ := digitsToRat ip + fq
    let (ev, s4) :=
      match s3 with
      | e :: r =>
        if e = 'e' ∨ e = 'E' then
          let (esign, r1) :=
            match r with
            | '-' :: rr => ((-1 : Int), rr)
            | '+' :: rr => ((1 : Int), rr)
            | _ => ((1 : Int), r)
          match run1 Char.isDigit r1 with
          | some (ds, r2) => (some (esign * (digitsToNat ds : Int)), r2)
          | none => (none, s3)
        else (some 0, s3)
      | [] => (some 0, s3)
    match ev with
    | none => none
    | some ex =>
      let q := base * (10 : ℚ) ^ ex
      some (if neg then -q else q, s4)

mutual

/-- One JSON value with fuel. -/
def parseJsonVal : Nat → Str → Option (Json × Str)
  | 0, _ => none
  | fuel + 1, s =>
    let s := s.dropWhile isJsonWs
    match s with
    | [] => none
    | c :: rest =>
      if c = '"' then
        match parseJsonStr fuel rest with
        | some (str, r) => some (Json.str str, r)
        | none => none
      else if c = lbrace then
        parseJsonObj fuel true rest
      else if c = '[' then
        parseJsonArr fuel true rest
      else if c = 't' then
        match dropLit (strOf "rue") rest with
        | some r => some (Json.bool true, r)
        | none => none
      else if c = 'f' then
        match dropLit (strOf "alse") rest with
        | some r => some (Json.bool false, r)
        | none => none
      else if c = 'n' then
        match dropLit (strOf "ull") rest with
        | some r => some (Json.null, r)
        | none => none
      else
        match parseJsonNum (c :: rest) with
        | some (q, r) => some (Json.num q, r)
        | none => none
termination_by fuel s => fuel

/-- Members of a JSON object after the opening brace; the flag marks the
first member, where a closing brace is allowed. -/
def parseJsonObj : Nat → Bool → Str → Option (Json × Str)
  | 0, _, _ => none
  | fuel + 1, first, s =>
    let s := s.dropWhile isJsonWs
    match s with
    | [] => none
    | c :: rest =>
      if first ∧ c = rbrace then some (Json.obj [], rest)
      else
        match (do
          let r1 ← dropLit (strOf "\"") (c :: rest)
          let (k, r2) ← parseJsonStr fuel r1
          let r3 := r2.dropWhile isJsonWs
          let r4 ← dropLit (strOf ":") r3
          let (v, r5) ← parseJsonVal fuel r4
          let r6 := r5.dropWhile isJsonWs
          some (k, v, r6) : Option (Str × Json × Str)) with
        | none => none
        | some (k, v, r6) =>
          match r6 with
          | ',' :: r7 =>
            match parseJsonObj fuel false r7 with
            | some (Json.obj kvs, r8) => some (Json.obj ((k, v) :: kvs), r8)
            | _ => none
          | c2 :: r7 =>
            if c2 = rbrace then some (Json.obj [(k, v)], r7) else none
          | [] => none
termination_by fuel first s => fuel

/-- Elements of a JSON array after the opening bracket. -/
def parseJsonArr : Nat → Bool → Str → Option (Json × Str)
  | 0, _, _ => none
  | fuel + 1, first, s =>
    let s := s.dropWhile isJsonWs
    match s with
    | [] => none
    | c :: rest =>
      if first ∧ c = ']' then some (Json.arr [], rest)
      else
        match parseJsonVal fuel (c :: rest) with
        | none => none
        | some (v, r1) =>
          let r2 := r1.dropWhile isJsonWs
          match r2 with
          | ',' :: r3 =>
            match parseJsonArr fuel false r3 with
            | some (Json.arr vs, r4) => some (Json.arr (v :: vs), r4)
            | _ => none
          | ']' :: r3 => some (Json.arr [v], r3)
          | _ => none
termination_by fuel first s => fuel

end

/-- json.loads: a complete JSON document with only whitespace around it. -/
def jsonLoads (s : Str) : Option Json :=
  match parseJsonVal (s.length + 1) s with
  | some (v, r) => if r.dropWhile isJsonWs = [] then some v else none
  | none => none

/-- Python dict.get on a parsed JSON object: later duplicate keys win, as
in the dict json.loads builds. -/
def jsonObjGet (kvs : List (Str × Json)) (k : Str) : Option Json :=
  (kvs.filter (fun kv => kv.1 = k)).getLast?.map (·.2)

/-- Unity version header pattern of line 183. -/
def matchUnityVersion (s : Str) : Option Str :=
  search (fun s1 => do
    let r1 ← dropLit (strOf "Unity Editor version:") s1
    let (w, r2) ← run1 isPySpace r1
    let _ := w
    let (v, r3) ← run1 (fun c => ¬ isPySpace c) r2
    let _ := r3
    some v) s

/-- Platform banner checks of lines 188 to 194. -/
def extractPlatform (s : Str) : Option Str :=
  if hasSub (strOf "macOS version:") s then some (strOf "macOS")
  else if hasSub (strOf "Windows version:") s then some (strOf "Windows")
  else if hasSub (strOf "Linux version:") s then some (strOf "Linux")
  else none

/-- Architecture header pattern of line 198. -/
def matchArchitecture (s : Str) : Option Str :=
  search (fun s1 => do
    let r1 ← dropLit (strOf "Architecture:") s1
    let (w, r2) ← run1 isPySpace r1
    let _ := w
    let (v, r3) ← run1 (fun c => ¬ isPySpace c) r2
    let _ := r3
    some v) s

/-- Project path argument pattern of line 753. -/
def matchProjectPathArg (s : Str) : Option Str :=
  search (fun s1 => do
    let r1 ← dropLit (strOf "-projectpath") s1
    let (w, r2) ← run1 isPySpace r1
    let _ := w
    let (v, r3) ← run1 (fun c => ¬ isPySpace c) r2
    let _ := r3
    some v) s

/-- Changed-project-path pattern of line 761. -/
def matchChangedProjectPath (s : Str) : Option Str :=
  search (fun s1 => do
    let r1 ← dropLit (strOf "Successfully changed project path to:") s1
    let (w, r2) ← run1 isPySpace r1
    let _ := w
    let (v, r3) ← run1 (fun c => ¬ isPySpace c) r2
    let _ := r3
    some v) s

/-- Timestamp pattern of line 691: four digits, dash, two digits, dash, two
digits, T, two digits, colon, two digits, colon, two digits; middle groups
are exact because a literal follows, the final pair takes the first two of
its digit run. -/
def tsCore (s : Str) : Option Str := do
  let (d1, r1) ← run1 Char.isDigit s
  if d1.length ≠ 4 then none else
  let r2 ← dropLit (strOf "-") r1
  let (d2, r3) ← run1 Char.isDigit r2
  if d2.length ≠ 2 then none else
  let r4 ← dropLit (strOf "-") r3
  let (d3, r5) ← run1 Char.isDigit r4
  if d3.length ≠ 2 then none else
  let r6 ← dropLit (strOf "T") r5
  let (d4, r7) ← run1 Char.isDigit r6
  if d4.length ≠ 2 then none else
  let r8 ← dropLit (strOf ":") r7
  let (d5, r9) ← run1 Char.isDigit r8
  if d5.length ≠ 2 then none else
  let r10 ← dropLit (strOf ":") r9
  let (d6, r11) ← run1 Char.isDigit r10
  let _ := r11
  if d6.length < 2 then none else
  some (d1 ++ strOf "-" ++ d2 ++ strOf "-" ++ d3 ++ strOf "T" ++
    d4 ++ strOf ":" ++ d5 ++ strOf ":" ++ d6.take 2)

/-- re.search of the timestamp pattern. -/
def matchTimestamp (s : Str) : Option Str := search tsCore s

/-- Line classification of _classify_line (lines 647 to 676). -/
def classifyLine (line : Str) : Str × Nat × Bool × Bool :=
  let indent := (line.takeWhile (fun c => c = '\t')).length
  let lower := pyLower line
  if hasSub (strOf "error") lower ∨ hasSub (strOf "exception") lower then
    (strOf "error", indent, true, false)
  else if hasSub (strOf "warning") lower then
    (strOf "warning", indent, false, true)
  else if line.headD ' ' = '[' ∧ line ≠ [] then
    (strOf "system", indent, false, false)
  else if hasSub (strOf "Start importing") line then
    (strOf "import", indent, false, false)
  else if hasSub (strOf "Asset Pipeline Refresh") line then
    (strOf "pipeline", indent, false, false)
  else if hasSub (strOf "Domain Reload") line then
    (strOf "domain_reload", indent, false, false)
  else if hasSub (strOf "##utp:") line then
    (strOf "telemetry", indent, false, false)
  else
    (strOf "normal", indent, false, false)

end ULog

namespace ULog

/-!
## Data model

One record type per SQLite table of the source, holding the columns the
parser writes (the autoincrement row id and log id foreign key are implied
by list position and the single-session scope of one parse run).
-/

/-- Row of the asset_imports table. -/
structure AssetImportEvent where
  lineNumber : Nat
  assetPath : Str
  assetName : Str
  assetType : Str
  assetCategory : Str
  guid : Str
  artifactId : Option Str
  importerType : Option Str
  timeSeconds : ℚ
  timeMs : ℚ
deriving Repr, DecidableEq

/-- Row of the pipeline_refreshes table. -/
structure PipelineRefreshEvent where
  lineNumber : Nat
  refreshId : Str
  totalTimeSeconds : ℚ
  initiatedBy : Str
  importsTotal : Option Nat
  importsActual : Option Nat
  assetDbProcessTimeMs : Option Nat
  assetDbCallbackTimeMs : Option Nat
  domainReloads : Option Nat
  domainReloadTimeMs : Option Nat
  compileTimeMs : Option Nat
  scriptingOtherMs : Option Nat
deriving Repr, DecidableEq

/-- Row of the domain_reload_steps table; id is the row id that deeper
steps reference through parentId. -/
structure DomainReloadStep where
  id : Nat
  lineNumber : Nat
  parentId : Option Nat
  stepName : Str
  timeMs : ℚ
  indentLevel : Nat
deriving Repr, DecidableEq

/-- Row of the script_compilation table. -/
structure ScriptCompilationEvent where
  lineNumber : Nat
  assemblyPath : Str
  definesCount : Nat
  referencesCount : Nat
deriving Repr, DecidableEq

/-- Row of the telemetry_data table. -/
structure TelemetryEvent where
  lineNumber : Nat
  telemetryType : Json
  jsonData : Str
deriving Repr

/-- Row of the operations table. -/
structure OperationEvent where
  lineNumber : Nat
  operationType : Str
  operationName : Str
  durationSeconds : ℚ
  durationMs : ℚ
  memoryMb : Option Nat
deriving Repr, DecidableEq

/-- Row of the log_lines table. -/
structure ClassifiedLine where
  lineNumber : Nat
  content : Str
  lineType : Str
  indentLevel : Nat
  isErr : Bool
  isWarn : Bool
  timestamp : Option Str
deriving Repr, DecidableEq

/-- Row of the log_metadata table (the text-derived fields; the
filesystem-based project-name fallback of lines 767 to 775 reads
directories next to the log file and is an external collaborator concern
outside the line-sequence interface, so the session here carries the pure
text extraction result). -/
structure Session where
  unityVersion : Option Str
  platform : Option Str
  architecture : Option Str
  projectName : Option Str
  totalLines : Nat
deriving Repr, DecidableEq

/-- Association list lookup, Python dict access by key. -/
def alistGet? [DecidableEq κ] : List (κ × α) → κ → Option α
  | [], _ => none
  | (k2, v) :: t, k => if k2 = k then some v else alistGet? t k

/-- Association list store, Python dict assignment: an existing key keeps
its position with a new value, a new key is appended. -/
def alistUpsert [DecidableEq κ] : List (κ × α) → κ → α → List (κ × α)
  | [], k, v => [(k, v)]
  | (k2, w) :: t, k, v =>
    if k2 = k then (k, v) :: t else (k2, w) :: alistUpsert t k v

/-- Association list delete, Python del on a dict key. -/
def alistErase [DecidableEq κ] : List (κ × α) → κ → List (κ × α)
  | [], _ => []
  | (k2, w) :: t, k => if k2 = k then t else (k2, w) :: alistErase t k

/-- Decimal digits of a number, for the Tundra operation name built with
an f-string. -/
def natToStr (n : Nat) : Str := Nat.toDigits 10 n

/-- Extension to display-name table of _categorize_asset (line 215). -/
def extDisplayMap : List (Str × Str) :=
  [(strOf ".shader", strOf ".shader"), (strOf ".compute", strOf ".compute"),
   (strOf ".cginc", strOf ".cginc"), (strOf ".hlsl", strOf ".hlsl"),
   (strOf ".png", strOf ".png"), (strOf ".jpg", strOf ".jpg"),
   (strOf ".jpeg", strOf ".jpeg"), (strOf ".tga", strOf ".tga"),
   (strOf ".psd", strOf ".psd"), (strOf ".exr", strOf ".exr"),
   (strOf ".hdr", strOf ".hdr"), (strOf ".tif", strOf ".tif"),
   (strOf ".tiff", strOf ".tiff"), (strOf ".bmp", strOf ".bmp"),
   (strOf ".fbx", strOf ".fbx"), (strOf ".obj", strOf ".obj"),
   (strOf ".blend", strOf ".blend"), (strOf ".mat", strOf ".mat"),
   (strOf ".prefab", strOf ".prefab"), (strOf ".unity", strOf ".unity"),
   (strOf ".asset", strOf ".asset"), (strOf ".controller", strOf ".controller"),
   (strOf ".anim", strOf ".anim"), (strOf ".physicmaterial", strOf ".physicmaterial"),
   (strOf ".cs", strOf ".cs"), (strOf ".js", strOf ".js"),
   (strOf ".dll", strOf ".dll"), (strOf ".asmdef", strOf ".asmdef"),
   (strOf ".ttf", strOf ".ttf"), (strOf ".otf", strOf ".otf"),
   (strOf ".wav", strOf ".wav"), (strOf ".mp3", strOf ".mp3"),
   (strOf ".ogg", strOf ".ogg")]

/-- Extension to category table of _categorize_asset (line 261). -/
def categoryMap : List (Str × Str) :=
  [(strOf ".shader", strOf "Rendering"), (strOf ".compute", strOf "Rendering"),
   (strOf ".cginc", strOf "Rendering"), (strOf ".hlsl", strOf "Rendering"),
   (strOf ".png", strOf "Textures"), (strOf ".jpg", strOf "Textures"),
   (strOf ".jpeg", strOf "Textures"), (strOf ".tga", strOf "Textures"),
   (strOf ".psd", strOf "Textures"), (strOf ".exr", strOf "Textures"),
   (strOf ".hdr", strOf "Textures"), (strOf ".tif", strOf "Textures"),
   (strOf ".tiff", strOf "Textures"), (strOf ".bmp", strOf "Textures"),
   (strOf ".mat", strOf "Materials"), (strOf ".prefab", strOf "Prefabs"),
   (strOf ".unity", strOf "Scenes"), (strOf ".fbx", strOf "3D Models"),
   (strOf ".obj", strOf "3D Models"), (strOf ".blend", strOf "3D Models"),
   (strOf ".cs", strOf "Scripts"), (strOf ".js", strOf "Scripts"),
   (strOf ".dll", strOf "Assemblies"), (strOf ".asmdef", strOf "Assemblies"),
   (strOf ".asset", strOf "Scriptable Objects"),
   (strOf ".controller", strOf "Animation"), (strOf ".anim", strOf "Animation"),
   (strOf ".physicmaterial", strOf "Physics"), (strOf ".ttf", strOf "Fonts"),
   (strOf ".otf", strOf "Fonts"), (strOf ".wav", strOf "Audio"),
   (strOf ".mp3", strOf "Audio"), (strOf ".ogg", strOf "Audio")]

/-- Embeds _categorize_asset (lines 201 to 303): display type and category from
the lowercased extension, with the category forced to Textures when
the importer argument is exactly TextureImporter.  The lowercased copy of the
whole path computed by the source is unused there and omitted. -/
def categorizeAsset (path : Str) (importerType : Option Str) : Str × Str :=
  let ext := pyLower (pySuffix path)
  let assetType :=
    (alistGet? extDisplayMap ext).getD
      (if ext = [] then strOf "no-extension" else ext)
  let category := (alistGet? categoryMap ext).getD (strOf "Other")
  let category :=
    match importerType with
    | some it =>
      if it ≠ [] ∧ it ≠ strOf "-1" ∧ it = strOf "TextureImporter" then
        strOf "Textures"
      else category
    | none => category
  (assetType, category)

/-- Extension to importer inference table, written twice verbatim in the
source (fallback pattern 1 at line 325 and the worker completion at line
857). -/
def importerMap : List (Str × Str) :=
  [(strOf ".fbx", strOf "FBXImporter"), (strOf ".png", strOf "TextureImporter"),
   (strOf ".jpg", strOf "TextureImporter"), (strOf ".jpeg", strOf "TextureImporter"),
   (strOf ".exr", strOf "TextureImporter"), (strOf ".tga", strOf "TextureImporter"),
   (strOf ".hdr", strOf "TextureImporter"), (strOf ".tif", strOf "TextureImporter"),
   (strOf ".tiff", strOf "TextureImporter"), (strOf ".bmp", strOf "TextureImporter"),
   (strOf ".mat", strOf "NativeFormatImporter"), (strOf ".prefab", strOf "PrefabImporter"),
   (strOf ".anim", strOf "NativeFormatImporter"),
   (strOf ".controller", strOf "NativeFormatImporter"),
   (strOf ".mp4", strOf "VideoClipImporter"), (strOf ".mov", strOf "VideoClipImporter"),
   (strOf ".avi", strOf "VideoClipImporter"), (strOf ".webm", strOf "VideoClipImporter"),
   (strOf ".m4v", strOf "VideoClipImporter"), (strOf ".mpg", strOf "VideoClipImporter"),
   (strOf ".mpeg", strOf "VideoClipImporter"), (strOf ".wav", strOf "AudioImporter"),
   (strOf ".mp3", strOf "AudioImporter"), (strOf ".ogg", strOf "AudioImporter"),
   (strOf ".aif", strOf "AudioImporter"), (strOf ".aiff", strOf "AudioImporter"),
   (strOf ".flac", strOf "AudioImporter")]

/-- Importer inferred from an extension, dict.get with UnknownImporter
default. -/
def inferImporter (ext : Str) : Str :=
  (alistGet? importerMap ext).getD (strOf "UnknownImporter")

/-- Importer families whose timing may arrive on a later line (line 404). -/
def multiLineImporters : List Str :=
  [strOf "VideoClipImporter", strOf "AudioImporter", strOf "MovieImporter"]

end ULog

namespace ULog

/-!
## Import extraction and orchestrator
-/

/-- Importer-type normalisation of the primary import path (lines 437 to
449): strip, unwrap a fully parenthesised token, translate the special
Importer(...) form, then drop the invalid sentinels. -/
def normalizeImporterRaw (raw : Str) : Option Str :=
  let t := pyStrip raw
  let imp1 : Option Str :=
    if (strOf "(").isPrefixOf t ∧ (strOf ")").isSuffixOf t then
      some (stripChars [ '(' , ')' ] t)
    else if (strOf "Importer(").isPrefixOf t then
      if hasSub (strOf "-1") t then none else some (strOf "Importer")
    else some t
  match imp1 with
  | none => none
  | some u =>
    if u = strOf "-1" ∨ u = [] then none
    else if pyStrip u = strOf "-1" then none
    else some u

/-- Embeds _parse_asset_import (lines 305 to 473): primary pattern, then fallback
pattern 1 (worker format, placeholder timing), then fallback pattern 2
(importer token, placeholder timing or deferral).  Returns the inserted
events and whether the Python function returned True. -/
def parseAssetImport (line : Str) (i : Nat) : List AssetImportEvent × Bool :=
  match matchPrimary line with
  | some m =>
    let imp := normalizeImporterRaw m.importerRaw
    let lastPart := pySplitLast m.path
    if (strOf "com.").isPrefixOf lastPart ∧ m.path.count '/' ≤ 2 then ([], false)
    else if imp = some (strOf "DefaultImporter") ∧ '.' ∉ lastPart then ([], false)
    else
      let tc := categorizeAsset m.path imp
      ([{ lineNumber := i, assetPath := m.path, assetName := pyName m.path,
          assetType := tc.1, assetCategory := tc.2, guid := m.guid,
          artifactId := m.artifactId, importerType := imp,
          timeSeconds := m.seconds, timeMs := qMul1000 m.seconds }], true)
  | none =>
    match matchStartEnd line with
    | some (path, guid) =>
      let imp := inferImporter (pyLower (pySuffix path))
      let lastPart := pySplitLast path
      if (strOf "com.").isPrefixOf lastPart ∧ '/' ∈ path ∧ path.count '/' ≤ 2 then
        ([], false)
      else if '.' ∉ lastPart then ([], false)
      else
        let tc := categorizeAsset path (some imp)
        ([{ lineNumber := i, assetPath := path, assetName := pyName path,
            assetType := tc.1, assetCategory := tc.2, guid := guid,
            artifactId := none, importerType := some imp,
            timeSeconds := mkRat 1 1000, timeMs := 1 }], false)
    | none =>
      match matchFallback2 line with
      | some (path, guid, impTok) =>
        let imp : Option Str :=
          if impTok = strOf "-1" ∨ impTok = [] then none else some impTok
        if imp = some (strOf "DefaultImporter") ∧ '.' ∉ pyName path then
          ([], false)
        else if imp.any (fun t => t ∈ multiLineImporters) then ([], false)
        else
          let tc := categorizeAsset path imp
          ([{ lineNumber := i, assetPath := path, assetName := pyName path,
              assetType := tc.1, assetCategory := tc.2, guid := guid,
              artifactId := none, importerType := imp,
              timeSeconds := mkRat 1 1000, timeMs := 1 }], true)
      | none => ([], false)

/-- Summary fields of a pipeline refresh (nullable columns). -/
structure SummaryFields where
  importsTotal : Option Nat
  importsActual : Option Nat
  assetDbProcessMs : Option Nat
  assetDbCallbackMs : Option Nat
  domainReloads : Option Nat
  domainReloadMs : Option Nat
  compileMs : Option Nat
  scriptingOtherMs : Option Nat
deriving Repr, DecidableEq

/-- All summary fields unresolved. -/
def emptySummary : SummaryFields := ⟨none, none, none, none, none, none, none, none⟩

/-- One line of the summary scan of _parse_pipeline_refresh (lines 492 to
522): the first matching marker of the chain contributes its fields, later
lines overwrite earlier values. -/
def scanSummaryStep (acc : SummaryFields) (line : Str) : SummaryFields :=
  if hasSub (strOf "Imports: total=") line then
    match matchImportsSummary line with
    | some (a, b) => { acc with importsTotal := some a, importsActual := some b }
    | none => acc
  else if hasSub (strOf "Asset DB Process Time:") line then
    match matchManagedNative line with
    | some (a, b) => { acc with assetDbProcessMs := some (a + b) }
    | none => acc
  else if hasSub (strOf "Asset DB Callback time:") line then
    match matchManagedNative line with
    | some (a, b) => { acc with assetDbCallbackMs := some (a + b) }
    | none => acc
  else if hasSub (strOf "Scripting:") line ∧ hasSub (strOf "domain reload") line then
    match matchScriptingSummary line with
    | some (a, b, c, d) =>
      { acc with domainReloads := some a, domainReloadMs := some b,
                 compileMs := some c, scriptingOtherMs := some d }
    | none => acc
  else acc

/-- Summary scan over the slice lines[1:10] of the context window. -/
def scanSummary (ls : List Str) : SummaryFields := ls.foldl scanSummaryStep emptySummary

/-- Embeds _parse_pipeline_refresh (lines 475 to 532): header pattern on the first
context line, then the summary scan over the following nine. -/
def parsePipelineRefresh (ctx : List Str) (startLine : Nat) : Option PipelineRefreshEvent :=
  match ctx with
  | [] => none
  | first :: rest =>
    match matchPipelineHeader first with
    | none => none
    | some (rid, total, initBy) =>
      let f := scanSummary (rest.take 9)
      some { lineNumber := startLine, refreshId := rid, totalTimeSeconds := total,
             initiatedBy := initBy, importsTotal := f.importsTotal,
             importsActual := f.importsActual,
             assetDbProcessTimeMs := f.assetDbProcessMs,
             assetDbCallbackTimeMs := f.assetDbCallbackMs,
             domainReloads := f.domainReloads,
             domainReloadTimeMs := f.domainReloadMs,
             compileTimeMs := f.compileMs,
             scriptingOtherMs := f.scriptingOtherMs }

/-- Loop of _parse_domain_reload (lines 534 to 568): consume step lines
until the first failure, assigning row ids from nid, parents from the
depth map, and truncating deeper depths after each insertion. -/
def parseDomainReloadAux (startLine : Nat) :
    List Str → Nat → Nat → List (Nat × Nat) → List DomainReloadStep
  | [], _, _, _ => []
  | l :: rest, idx, nid, levels =>
    match matchDrStep l with
    | some (indent, nm, ms) =>
      let parent := if 0 < indent then alistGet? levels (indent - 1) else none
      let levels2 := (alistUpsert levels indent nid).filter (fun kv => kv.1 ≤ indent)
      { id := nid, lineNumber := startLine + idx, parentId := parent,
        stepName := nm, timeMs := natQ ms, indentLevel := indent } ::
        parseDomainReloadAux startLine rest (idx + 1) (nid + 1) levels2
    | none => []

/-- Embeds _parse_domain_reload applied to the collected section lines, with nid
the next row id of the domain_reload_steps table. -/
def parseDomainReload (ls : List Str) (startLine nid : Nat) : List DomainReloadStep :=
  parseDomainReloadAux startLine ls 0 nid []

/-- Per-worker reconciliation state (the worker_states dict values of line
792). -/
structure WorkerState where
  assetPath : Str
  guid : Str
  lineNumber : Nat
  importerType : Option Str
deriving Repr, DecidableEq

/-- Pending non-worker import (the pending_imports dict values of line
795). -/
structure PendingImport where
  assetPath : Str
  guid : Str
  lineNumber : Nat
  importerType : Str
deriving Repr, DecidableEq

/-- Transient orchestrator state of parse_log_file. -/
structure ParseState where
  inDomainReload : Bool
  domainReloadLines : List Str
  domainReloadStart : Nat
  workerStates : List (Nat × WorkerState)
  pendingImports : List (Str × PendingImport)
deriving Repr, DecidableEq

/-- Initial orchestrator state. -/
def initState : ParseState := ⟨false, [], 0, [], []⟩

/-- Emitted records, one list per table. -/
structure ParseOutput where
  assetImports : List AssetImportEvent
  pipelineRefreshes : List PipelineRefreshEvent
  domainReloadSteps : List DomainReloadStep
  scriptCompilations : List ScriptCompilationEvent
  telemetryEvents : List TelemetryEvent
  operations : List OperationEvent
deriving Repr

/-- No records yet. -/
def emptyOutput : ParseOutput := ⟨[], [], [], [], [], []⟩

/-- Worker completion resolution (lines 838 to 910): invalid-importer
cleanup, inference from the extension when unset, the two skip rules, and
the insertion, which passes no importer to _categorize_asset.  none means
the import was skipped; the worker entry is cleared either way by the
caller. -/
def workerCompletionEvent (ws : WorkerState) (aid : Str) (secs : ℚ) :
    Option AssetImportEvent :=
  let imp0 : Option Str :=
    match ws.importerType with
    | some t => if t = strOf "-1" ∨ t = [] then none else some t
    | none => none
  let imp : Str :=
    match imp0 with
    | some t => t
    | none => inferImporter (pyLower (pySuffix ws.assetPath))
  let lastPart := pySplitLast ws.assetPath
  if (strOf "com.").isPrefixOf lastPart ∧ ws.assetPath.count '/' ≤ 2 then none
  else if '.' ∉ lastPart then none
  else
    let tc := categorizeAsset ws.assetPath none
    some { lineNumber := ws.lineNumber, assetPath := ws.assetPath,
           assetName := pyName ws.assetPath, assetType := tc.1,
           assetCategory := tc.2, guid := ws.guid, artifactId := some aid,
           importerType := some imp, timeSeconds := secs,
           timeMs := qMul1000 secs }

/-- Worker branch of the orchestrator (lines 801 to 914).  some means the
Python loop hit a continue; none falls through to the non-worker chain
with the full line. -/
def workerHandle (i num : Nat) (wline : Str) (st : ParseState)
    (out : ParseOutput) : Option (ParseState × ParseOutput) :=
  match (if hasSub (strOf "Start importing") wline then matchStartEnd wline
         else none) with
  | some (path, g) =>
    let ws : WorkerState :=
      { assetPath := path, guid := g, lineNumber := i, importerType := none }
    some ({ st with workerStates := alistUpsert st.workerStates num ws }, out)
  | none =>
    let stage2 : Option (ParseState × ParseOutput) :=
      match alistGet? st.workerStates num with
      | some ws =>
        if ws.importerType = none then
          match matchWorkerImporter wline with
          | some tok =>
            let imp : Option Str :=
              if tok = strOf "-1" ∨ ¬ (strOf "Importer").isSuffixOf tok then
                none
              else some tok
            let ws2 := { ws with importerType := imp }
            some ({ st with workerStates := alistUpsert st.workerStates num ws2 }, out)
          | none => none
        else none
      | none => none
    match stage2 with
    | some r => some r
    | none =>
      if hasSub (strOf "-> (artifact id:") wline then
        match matchArtifact wline, alistGet? st.workerStates num with
        | some (aid, secs), some ws =>
          let st2 := { st with workerStates := alistErase st.workerStates num }
          match workerCompletionEvent ws aid secs with
          | some ev =>
            some (st2, { out with assetImports := out.assetImports ++ [ev] })
          | none => some (st2, out)
        | _, _ => none
      else none

/-- Pending-import resolution on a non-worker artifact line (lines 926 to
948): take the last key of the pending table, look it up, insert the
combined event with no skip checks, and delete the entry. -/
def resolvePendingLast (st : ParseState) (out : ParseOutput) (aid : Str)
    (secs : ℚ) : ParseState × ParseOutput :=
  match st.pendingImports.getLast? with
  | some (g, _) =>
    if g ≠ [] then
      match alistGet? st.pendingImports g with
      | some e =>
        let tc := categorizeAsset e.assetPath (some e.importerType)
        let ev : AssetImportEvent :=
          { lineNumber := e.lineNumber, assetPath := e.assetPath,
            assetName := pyName e.assetPath, assetType := tc.1,
            assetCategory := tc.2, guid := g, artifactId := some aid,
            importerType := some e.importerType, timeSeconds := secs,
            timeMs := qMul1000 secs }
        ({ st with pendingImports := alistErase st.pendingImports g },
         { out with assetImports := out.assetImports ++ [ev] })
      | none => (st, out)
    else (st, out)
  | none => (st, out)

/-- The if-elif dispatch chain of the orchestrator after the worker and
pending-completion checks (lines 952 to 1008). -/
def chainRest (i : Nat) (line : Str) (rest : List Str) (st : ParseState)
    (out : ParseOutput) : ParseState × ParseOutput :=
  if hasSub (strOf "Start importing") line ∧ ¬ hasSub (strOf "[Worker") line then
    let (evs, flag) := parseAssetImport line i
    let out2 := { out with assetImports := out.assetImports ++ evs }
    if flag then (st, out2)
    else
      match matchPendingStart line with
      | some (path, g, imp) =>
        let pe : PendingImport :=
          { assetPath := path, guid := g, lineNumber := i, importerType := imp }
        ({ st with pendingImports := alistUpsert st.pendingImports g pe }, out2)
      | none => (st, out2)
  else if hasSub (strOf "Asset Pipeline Refresh") line then
    match parsePipelineRefresh (line :: rest.take 10) i with
    | some ev =>
      (st, { out with pipelineRefreshes := out.pipelineRefreshes ++ [ev] })
    | none => (st, out)
  else if hasSub (strOf "Domain Reload Profiling:") line then
    ({ st with inDomainReload := true, domainReloadStart := i,
               domainReloadLines := [line] }, out)
  else if st.inDomainReload then
    if drContinues line then
      ({ st with domainReloadLines := st.domainReloadLines ++ [line] }, out)
    else
      let steps := parseDomainReload st.domainReloadLines st.domainReloadStart
        (out.domainReloadSteps.length + 1)
      ({ st with inDomainReload := false, domainReloadLines := [] },
       { out with domainReloadSteps := out.domainReloadSteps ++ steps })
  else if hasSub (strOf "Processing assembly") line then
    match matchScriptComp line with
    | some (p, d, r) =>
      (st, { out with scriptCompilations := out.scriptCompilations ++
               [{ lineNumber := i, assemblyPath := p, definesCount := d,
                  referencesCount := r }] })
    | none => (st, out)
  else if hasSub (strOf "##utp:") line then
    match matchTelemetry line with
    | some js =>
      match jsonLoads js with
      | some (Json.obj kvs) =>
        let ty := (jsonObjGet kvs (strOf "type")).getD (Json.str (strOf "Unknown"))
        (st, { out with telemetryEvents := out.telemetryEvents ++
                 [{ lineNumber := i, telemetryType := ty, jsonData := js }] })
      | some _ => (st, out)
      | none => (st, out)
    | none => (st, out)
  else if hasSub (strOf "Operation") line ∧ hasSub (strOf "took") line ∧
      hasSub (strOf "sec") line then
    match matchOperation line with
    | some m =>
      (st, { out with operations := out.operations ++
               [{ lineNumber := i, operationType := pyStrip m.opType,
                  operationName := pyStrip m.opName,
                  durationSeconds := m.seconds, durationMs := qMul1000 m.seconds,
                  memoryMb := m.memMb }] })
    | none => (st, out)
  else if hasSub (strOf "*** Tundra") line ∧ hasSub (strOf "seconds") line then
    match matchTundra line with
    | some (nm, t, u, e) =>
      let fullName := pyStrip nm ++ strOf " (" ++ natToStr u ++
        strOf " items updated, " ++ natToStr e ++ strOf " evaluated)"
      (st, { out with operations := out.operations ++
               [{ lineNumber := i, operationType := strOf "Tundra",
                  operationName := fullName, durationSeconds := t,
                  durationMs := qMul1000 t, memoryMb := none }] })
    | none => (st, out)
  else (st, out)

/-- Non-worker part of the loop body: the pending artifact-completion check
of lines 918 to 949 (which continues whenever the pattern matches and the
pending table is nonempty), then the dispatch chain. -/
def mainChain (i : Nat) (line : Str) (rest : List Str) (st : ParseState)
    (out : ParseOutput) : ParseState × ParseOutput :=
  if hasSub (strOf "-> (artifact id:") line ∧ ¬ hasSub (strOf "[Worker") line then
    match matchArtifact line with
    | some (aid, secs) =>
      if st.pendingImports ≠ [] then resolvePendingLast st out aid secs
      else chainRest i line rest st out
    | none => chainRest i line rest st out
  else chainRest i line rest st out

/-- One iteration of the orchestrator loop of parse_log_file for the line
numbered i, with rest the lines after it (read ahead by the pipeline
refresh context). -/
def step (i : Nat) (line : Str) (rest : List Str) (st : ParseState)
    (out : ParseOutput) : ParseState × ParseOutput :=
  match matchWorkerPrefix line with
  | some (num, wline) =>
    match workerHandle i num wline st out with
    | some r => r
    | none => mainChain i line rest st out
  | none => mainChain i line rest st out

/-- The orchestrator loop over all lines, 1-based numbering.  A domain
reload section still open at the end of input is never flushed, as in the
source. -/
def processLines : Nat → List Str → ParseState → ParseOutput → ParseState × ParseOutput
  | _, [], st, out => (st, out)
  | i, line :: rest, st, out =>
    let r := step i line rest st out
    processLines (i + 1) rest r.1 r.2

/-- Embeds _store_log_lines (lines 678 to 724): one classified row per input
line. -/
def storeLogLines (lines : List Str) : List ClassifiedLine :=
  lines.mapIdx (fun idx l =>
    let c := classifyLine l
    { lineNumber := idx + 1, content := l, lineType := c.1,
      indentLevel := c.2.1, isErr := c.2.2.1, isWarn := c.2.2.2,
      timestamp := matchTimestamp l })

/-- Header metadata scan of parse_log_file (lines 744 to 764): each field
keeps its first match over the first 100 lines. -/
def extractMeta (lines : List Str) :
    Option Str × Option Str × Option Str × Option Str :=
  (lines.take 100).foldl
    (fun acc line =>
      let v := match acc.1 with
        | some x => some x
        | none => matchUnityVersion line
      let p := match acc.2.1 with
        | some x => some x
        | none => extractPlatform line
      let a := match acc.2.2.1 with
        | some x => some x
        | none => matchArchitecture line
      let pn := match acc.2.2.2 with
        | some x => some x
        | none =>
          match matchProjectPathArg line with
          | some pp => some (pyName pp)
          | none =>
            if hasSub (strOf "Successfully changed project path to:") line then
              match matchChangedProjectPath line with
              | some pp => some (pyName pp)
              | none => none
            else none
      (v, p, a, pn))
    (none, none, none, none)

/-- Result of one parse run: the session row, the event tables and the
classified line stream. -/
structure ParseResult where
  session : Session
  output : ParseOutput
  classified : List ClassifiedLine

/-- parse_log_file (lines 726 to 1033) on an ordered, complete line
sequence: header metadata, one session row, the single-pass dispatch loop,
then the classified-line store.  Wall-clock parse duration and the
filesystem project-name fallback are environment effects outside the line
sequence. -/
def parseLogFile (lines : List Str) : ParseResult :=
  let meta := extractMeta lines
  let session : Session :=
    { unityVersion := meta.1, platform := meta.2.1,
      architecture := meta.2.2.1, projectName := meta.2.2.2,
      totalLines := lines.length }
  let r := processLines 1 lines initState emptyOutput
  { session := session, output := r.2, classified := storeLogLines lines }

end ULog

namespace ULog

/-!
## Canonical line shapes and concrete inputs

Line builders for the log grammars the claims quantify over, and the
concrete inputs used by counterexamples and witnesses.
-/

/-- A worker-prefixed line: bracketed worker id, one space, content. -/
def workerPre (w : Str) : Str := strOf "[Worker" ++ w ++ strOf "] "

/-- A start-importing line with no trailing timing. -/
def startImportLine (p g : Str) : Str :=
  strOf "Start importing " ++ p ++ strOf " using Guid(" ++ g ++ strOf ")"

/-- An artifact completion line. -/
def artifactCompletionLine (a n : Str) : Str :=
  strOf "-> (artifact id: " ++ [quoteChar] ++ a ++ [quoteChar] ++
    strOf ") in " ++ n ++ strOf " seconds"

/-- A pipeline refresh header line. -/
def pipelineHeaderLine (rid t reason : Str) : Str :=
  strOf "Asset Pipeline Refresh (id=" ++ rid ++ strOf "): Total: " ++ t ++
    strOf " seconds - Initiated by " ++ reason

/-- The package-folder condition of the skip rule: last path segment
starts with com. and the path has at most two separators. -/
def comPkgCond (p : Str) : Bool :=
  (strOf "com.").isPrefixOf (pySplitLast p) && decide (p.count '/' ≤ 2)

/-- Worker import of a .mat asset whose importer line says
TextureImporter. -/
def c1CexLines : List Str :=
  [workerPre (strOf "0") ++ startImportLine (strOf "Assets/foo.mat") (strOf "abc"),
   workerPre (strOf "0") ++ strOf "(TextureImporter)",
   workerPre (strOf "0") ++ artifactCompletionLine (strOf "def") (strOf "0.500")]

/-- A separator-bearing com. package path imported through fallback
pattern 2 (importer token, no timing). -/
def c2CexLine : Str :=
  strOf "Start importing Packages/com.unity.foo using Guid(aaa) (CustomImporter)"

/-- A domain reload section with step depths 0,1,1,2,0. -/
def c4StepLines : List Str :=
  [strOf "A (1ms)", strOf "\tB (2ms)", strOf "\tC (3ms)",
   strOf "\t\tD (4ms)", strOf "E (5ms)"]

/-- The same section with its header, as it appears in a log. -/
def c4Lines : List Str := strOf "Domain Reload Profiling:" :: c4StepLines

/-- A domain reload section terminated by a Processing assembly line. -/
def c5Lines : List Str :=
  [strOf "Domain Reload Profiling:", strOf "\tB (2ms)",
   strOf "Processing assembly Foo.dll, with 1 defines and 2 references"]

/-- A pipeline refresh header whose imports summary sits on the tenth
following line. -/
def c6CexLines : List Str :=
  pipelineHeaderLine (strOf "abc") (strOf "2.5") (strOf "Refresh") ::
    List.replicate 9 (strOf "filler") ++
    [strOf "Imports: total=516 (actual=515, local cache=1, cache server=0)"]

/-- A worker-prefixed script compilation line. -/
def c7CexLine : Str :=
  workerPre (strOf "0") ++ strOf "Processing assembly Foo.dll, with 1 defines and 2 references"

/-- Worker import of an .fbx asset whose importer line says
TextureImporter. -/
def c8CexLines : List Str :=
  [workerPre (strOf "1") ++ startImportLine (strOf "Assets/thing.fbx") (strOf "aa"),
   workerPre (strOf "1") ++ strOf "(TextureImporter)",
   workerPre (strOf "1") ++ artifactCompletionLine (strOf "bb") (strOf "0.250")]

end ULog

namespace ULog

/-!
## Basic lemmas

Value-faithfulness of the kernel-reducible rational constructions, and
evaluation lemmas for the matcher combinators on canonically shaped
strings.
-/

/-- The mkRat form of a natural number has the value of the cast. -/
theorem natQ_eq (n : Nat) : natQ n = (n : ℚ) := by
  simp [natQ, Rat.mkRat_eq_div]

/-- The mkRat form of the milliseconds conversion has the value of
multiplication by 1000. -/
theorem qMul1000_eq (q : ℚ) : qMul1000 q = q * 1000 := by
  rw [qMul1000, Rat.mkRat_eq_div]
  push_cast
  rw [mul_comm (q.num : ℚ) 1000, mul_div_assoc, Rat.num_div_den, mul_comm]

/-- Consuming a literal from a string that starts with it. -/
theorem dropLit_append (l s : Str) : dropLit l (l ++ s) = some s := by
  induction l with
  | nil => rfl
  | cons c cs ih => simp [dropLit, ih]

/-- A successful literal consumption exhibits the prefix. -/
theorem dropLit_eq_some {l s r : Str} (h : dropLit l s = some r) : s = l ++ r := by
  induction l generalizing s with
  | nil => simpa [dropLit] using h
  | cons c cs ih =>
    cases s with
    | nil => simp [dropLit] at h
    | cons d ds =>
      by_cases hc : c = d
      · subst hc
        simp only [dropLit, if_pos rfl] at h
        simpa using ih h
      · simp [dropLit, hc] at h

/-- TakeWhile of a run followed by a character outside the class. -/
theorem takeWhile_append_char (p : Char → Bool) (xs : Str) (y : Char) (ys : Str)
    (hall : ∀ c ∈ xs, p c = true) (hy : p y = false) :
    (xs ++ y :: ys).takeWhile p = xs := by
  induction xs with
  | nil => simp [List.takeWhile_cons, hy]
  | cons c cs ih =>
    have hc : p c = true := hall c (by simp)
    simp only [List.cons_append, List.takeWhile_cons, hc, if_true]
    rw [ih (fun d hd => hall d (by simp [hd]))]

/-- DropWhile of a run followed by a character outside the class. -/
theorem dropWhile_append_char (p : Char → Bool) (xs : Str) (y : Char) (ys : Str)
    (hall : ∀ c ∈ xs, p c = true) (hy : p y = false) :
    (xs ++ y :: ys).dropWhile p = y :: ys := by
  induction xs with
  | nil => simp [List.dropWhile_cons, hy]
  | cons c cs ih =>
    have hc : p c = true := hall c (by simp)
    simp only [List.cons_append, List.dropWhile_cons, hc, if_true]
    exact ih (fun d hd => hall d (by simp [hd]))

/-- Span of a run followed by a character outside the class. -/
theorem span_append_char (p : Char → Bool) (xs : Str) (y : Char) (ys : Str)
    (hall : ∀ c ∈ xs, p c = true) (hy : p y = false) :
    (xs ++ y :: ys).span p = (xs, y :: ys) := by
  rw [List.span_eq_take_drop, takeWhile_append_char p xs y ys hall hy,
    dropWhile_append_char p xs y ys hall hy]

/-- Greedy plus of a nonempty run followed by a character outside the
class. -/
theorem run1_append (p : Char → Bool) (xs : Str) (y : Char) (ys : Str)
    (hne : xs ≠ []) (hall : ∀ c ∈ xs, p c = true) (hy : p y = false) :
    run1 p (xs ++ y :: ys) = some (xs, y :: ys) := by
  unfold run1
  rw [span_append_char p xs y ys hall hy]
  simp [hne]

/-- One unfolding of the lazy group on a nonempty string. -/
theorem lazySplit_cons {β : Type} (k : Str → Option β) (c : Char) (rest : Str) :
    lazySplit k (c :: rest) =
      (match k rest with
       | some b => some ([c], b)
       | none =>
         match lazySplit k rest with
         | some (p, b) => some (c :: p, b)
         | none => none) := rfl

/-- The lazy group takes exactly the block xs when the continuation
succeeds after it and fails at every earlier split. -/
theorem lazySplit_append {β : Type} (k : Str → Option β) (xs ys : Str) (b : β)
    (hne : xs ≠ []) (hk : k ys = some b)
    (hfail : ∀ j, 1 ≤ j → j < xs.length → k (xs.drop j ++ ys) = none) :
    lazySplit k (xs ++ ys) = some (xs, b) := by
  induction xs with
  | nil => cases hne rfl
  | cons c cs ih =>
    cases cs with
    | nil => simp [lazySplit, hk]
    | cons d ds =>
      have h1 : k ((d :: ds) ++ ys) = none := by
        have := hfail 1 (by omega) (by simp)
        simpa using this
      have h2 : lazySplit k ((d :: ds) ++ ys) = some (d :: ds, b) := by
        refine ih (by simp) ?_
        intro j hj1 hj2
        have := hfail (j + 1) (by omega) (by simp at hj2 ⊢; omega)
        simpa using this
      simp only [List.cons_append] at h1 h2 ⊢
      rw [lazySplit_cons, h1, h2]

/-- A search that succeeds at the start position. -/
theorem search_head {β : Type} (m : Str → Option β) (s : Str) (b : β)
    (h : m s = some b) : search m s = some b := by
  cases s <;> simp [search, h]

/-- Substring containment of a prefix. -/
theorem hasSub_of_isPrefixOf {n h : Str} (hp : n.isPrefixOf h = true) :
    hasSub n h = true := by
  cases h <;> simp [hasSub, hp]

/-- A literal is a prefix of itself followed by anything. -/
theorem isPrefixOf_append_self (l t : Str) : l.isPrefixOf (l ++ t) = true := by
  rw [List.isPrefixOf_iff_prefix]
  exact List.prefix_append l t

/-- A successful worker-prefix match exhibits the bracket literal. -/
theorem matchWorkerPrefix_opens {line : Str} {r : Nat × Str}
    (h : matchWorkerPrefix line = some r) :
    (strOf "[Worker").isPrefixOf line = true := by
  unfold matchWorkerPrefix at h
  cases hd : dropLit (strOf "[Worker") line with
  | none => rw [hd] at h; simp at h
  | some r1 =>
    rw [dropLit_eq_some hd]
    exact isPrefixOf_append_self _ _

/-- Association lookup success yields membership with that key. -/
theorem alistGet?_mem {κ α : Type} [DecidableEq κ] {m : List (κ × α)} {k : κ}
    {v : α} (h : alistGet? m k = some v) : (k, v) ∈ m := by
  induction m with
  | nil => simp [alistGet?] at h
  | cons kv t ih =>
    obtain ⟨k2, w⟩ := kv
    by_cases hk : k2 = k
    · subst hk
      simp [alistGet?] at h
      subst h; simp
    · simp only [alistGet?, if_neg hk] at h
      exact List.mem_cons_of_mem _ (ih h)

/-- Store preserves a pointwise property when the new pair satisfies it. -/
theorem alistUpsert_forall {κ α : Type} [DecidableEq κ]
    (P : κ × α → Prop) {m : List (κ × α)} {k : κ} {v : α}
    (hm : ∀ kv ∈ m, P kv) (hv : P (k, v)) :
    ∀ kv ∈ alistUpsert m k v, P kv := by
  induction m with
  | nil => intro kv hkv; simp [alistUpsert] at hkv; subst hkv; exact hv
  | cons kv0 t ih =>
    obtain ⟨k2, w⟩ := kv0
    intro kv hkv
    by_cases hk : k2 = k
    · subst hk
      simp only [alistUpsert, if_pos rfl] at hkv
      rcases List.mem_cons.1 hkv with h | h
      · subst h; exact hv
      · exact hm _ (List.mem_cons_of_mem _ h)
    · simp only [alistUpsert, if_neg hk] at hkv
      rcases List.mem_cons.1 hkv with h | h
      · subst h; exact hm _ (by simp)
      · exact ih (fun x hx => hm x (List.mem_cons_of_mem _ hx)) _ h

/-- Delete only removes entries. -/
theorem alistErase_subset {κ α : Type} [DecidableEq κ] {m : List (κ × α)}
    {k : κ} : ∀ kv ∈ alistErase m k, kv ∈ m := by
  induction m with
  | nil => intro kv hkv; simp [alistErase] at hkv
  | cons kv0 t ih =>
    obtain ⟨k2, w⟩ := kv0
    intro kv hkv
    by_cases hk : k2 = k
    · subst hk
      simp only [alistErase, if_pos rfl] at hkv
      exact List.mem_cons_of_mem _ hkv
    · simp only [alistErase, if_neg hk] at hkv
      rcases List.mem_cons.1 hkv with h | h
      · subst h; simp
      · exact List.mem_cons_of_mem _ (ih _ h)

/-- Lookup of a freshly stored key. -/
theorem alistGet?_upsert_self {κ α : Type} [DecidableEq κ]
    (m : List (κ × α)) (k : κ) (v : α) :
    alistGet? (alistUpsert m k v) k = some v := by
  induction m with
  | nil => simp [alistUpsert, alistGet?]
  | cons kv0 t ih =>
    obtain ⟨k2, w⟩ := kv0
    by_cases hk : k2 = k
    · subst hk; simp [alistUpsert, alistGet?]
    · simp [alistUpsert, alistGet?, hk, ih]

/-- Deleting a key absent from the front block removes the final entry. -/
theorem alistErase_append_notin {κ α : Type} [DecidableEq κ]
    {m : List (κ × α)} {k : κ} {v : α} (h : ∀ kv ∈ m, kv.1 ≠ k) :
    alistErase (m ++ [(k, v)]) k = m := by
  induction m with
  | nil => simp [alistErase]
  | cons kv0 t ih =>
    obtain ⟨k2, w⟩ := kv0
    have hk : k2 ≠ k := h (k2, w) (by simp)
    simp only [List.cons_append, alistErase, if_neg hk, List.append_eq]
    rw [ih (fun x hx => h x (List.mem_cons_of_mem _ hx))]

/-- Lookup of a key absent from the front block finds the final entry. -/
theorem alistGet?_append_notin {κ α : Type} [DecidableEq κ]
    {m : List (κ × α)} {k : κ} {v : α} (h : ∀ kv ∈ m, kv.1 ≠ k) :
    alistGet? (m ++ [(k, v)]) k = some v := by
  induction m with
  | nil => simp [alistGet?]
  | cons kv0 t ih =>
    obtain ⟨k2, w⟩ := kv0
    have hk : k2 ≠ k := h (k2, w) (by simp)
    simp only [List.cons_append, alistGet?, if_neg hk, List.append_eq]
    exact ih (fun x hx => h x (List.mem_cons_of_mem _ hx))

end ULog

namespace ULog

/-!
## Matcher evaluation on canonical line shapes
-/

/-- Worker prefix match on a canonical worker line whose content starts
with a non-space character. -/
theorem matchWorkerPrefix_canonical (W : Str) (r0 : Char) (rtl : Str)
    (hW : W ≠ []) (hWd : ∀ c ∈ W, c.isDigit = true) (hr0 : isPySpace r0 = false) :
    matchWorkerPrefix (workerPre W ++ (r0 :: rtl)) = some (digitsToNat W, r0 :: rtl) := by
  have e1 : workerPre W ++ (r0 :: rtl) =
      strOf "[Worker" ++ (W ++ (']' :: ' ' :: (r0 :: rtl))) := by
    simp [workerPre, strOf]
  have e2 : run1 Char.isDigit (W ++ (']' :: ' ' :: (r0 :: rtl))) =
      some (W, ']' :: ' ' :: (r0 :: rtl)) :=
    run1_append _ _ _ _ hW hWd (by decide)
  have e3 : dropLit (strOf "]") (']' :: ' ' :: (r0 :: rtl)) = some (' ' :: (r0 :: rtl)) := rfl
  have e4 : (' ' :: (r0 :: rtl)).span isPySpace = ([' '], r0 :: rtl) :=
    span_append_char _ [' '] r0 rtl (by intro c hc; simp at hc; subst hc; decide) hr0
  rw [e1]
  simp only [matchWorkerPrefix, dropLit_append, e2, e3, e4]
  simp

/-- Worker prefix match fails on any line not opening with a bracket. -/
theorem matchWorkerPrefix_none (c : Char) (r : Str) (hc : c ≠ '[') :
    matchWorkerPrefix (c :: r) = none := by
  have h1 : ('[' = c) = False := eq_false (fun h => hc h.symm)
  have hd : dropLit (strOf "[Worker") (c :: r) = none := by
    simp [strOf, dropLit, h1]
  simp [matchWorkerPrefix, hd]

/-- The guid tail of the worker start pattern on its canonical shape. -/
theorem guidEndTail_canonical (G : Str) (hG : G ≠ [])
    (hGh : ∀ c ∈ G, isHexLower c = true) :
    guidEndTail (strOf " using Guid(" ++ G ++ strOf ")") = some G := by
  have e0 : strOf " using Guid(" ++ G ++ strOf ")" =
      strOf " using Guid(" ++ (G ++ [')'] ) := by
    simp [strOf]
  have e1 : run1 isHexLower (G ++ [')']) = some (G, [')']) := by
    have := run1_append isHexLower G ')' [] hG hGh (by decide)
    simpa using this
  rw [e0]
  simp only [guidEndTail, dropLit_append, e1]
  rfl

/-- The worker-format start pattern on its canonical line, under the
disambiguation hypothesis that the continuation fails at every earlier
split of the path. -/
theorem matchStartEnd_canonical (P G : Str) (hP : P ≠ []) (hG : G ≠ [])
    (hGh : ∀ c ∈ G, isHexLower c = true)
    (hfail : ∀ j, 1 ≤ j → j < P.length →
      guidEndTail (P.drop j ++ (strOf " using Guid(" ++ G ++ strOf ")")) = none) :
    matchStartEnd (startImportLine P G) = some (P, G) := by
  have e0 : startImportLine P G =
      strOf "Start importing " ++ (P ++ (strOf " using Guid(" ++ G ++ strOf ")")) := by
    simp [startImportLine, strOf]
  have e1 : lazySplit guidEndTail (P ++ (strOf " using Guid(" ++ G ++ strOf ")")) =
      some (P, G) :=
    lazySplit_append guidEndTail P _ G hP (guidEndTail_canonical G hG hGh) hfail
  have e2 : startEndCore (strOf "Start importing " ++
      (P ++ (strOf " using Guid(" ++ G ++ strOf ")"))) = some (P, G) := by
    simp only [startEndCore, dropLit_append, e1]
  rw [e0]
  exact search_head _ _ _ e2

/-- The artifact completion pattern on its canonical line. -/
theorem matchArtifact_canonical (A N : Str) (t : ℚ) (hA : A ≠ [])
    (hAh : ∀ c ∈ A, isHexLower c = true) (hN : N ≠ [])
    (hNd : ∀ c ∈ N, isDigitDot c = true) (hNv : floatVal? N = some t) :
    matchArtifact (artifactCompletionLine A N) = some (A, t) := by
  have e0 : artifactCompletionLine A N =
      (strOf "-> (artifact id: " ++ [quoteChar]) ++
        (A ++ (quoteChar :: (strOf ") in " ++ (N ++ strOf " seconds")))) := by
    simp [artifactCompletionLine, strOf]
  have e1 : run1 isHexLower (A ++ (quoteChar :: (strOf ") in " ++ (N ++ strOf " seconds")))) =
      some (A, quoteChar :: (strOf ") in " ++ (N ++ strOf " seconds"))) :=
    run1_append _ _ _ _ hA hAh (by decide)
  have e2 : dropLit ([quoteChar] ++ strOf ") in ")
      (quoteChar :: (strOf ") in " ++ (N ++ strOf " seconds"))) =
      some (N ++ strOf " seconds") := by
    have : quoteChar :: (strOf ") in " ++ (N ++ strOf " seconds")) =
        ([quoteChar] ++ strOf ") in ") ++ (N ++ strOf " seconds") := by simp
    rw [this, dropLit_append]
  have e3 : run1 isDigitDot (N ++ strOf " seconds") = some (N, strOf " seconds") := by
    have : N ++ strOf " seconds" = N ++ ' ' :: strOf "seconds" := by simp [strOf]
    rw [this]
    have := run1_append isDigitDot N ' ' (strOf "seconds") hN hNd (by decide)
    simpa using this
  have e4 : dropLit (strOf " seconds") (strOf " seconds") = some [] := by
    have := dropLit_append (strOf " seconds") []
    simpa using this
  have core : artifactCore (artifactCompletionLine A N) = some (A, t) := by
    rw [e0]
    simp only [artifactCore, dropLit_append, e1, e2, e3, hNv, e4]
  have e5 : ∃ c r, artifactCompletionLine A N = c :: r := by
    simp [artifactCompletionLine, strOf]
  exact search_head _ _ _ core

/-- The pipeline refresh header pattern on its canonical line. -/
theorem matchPipelineHeader_canonical (rid T reason : Str) (t : ℚ)
    (hr : rid ≠ []) (hrh : ∀ c ∈ rid, isHexLower c = true) (hT : T ≠ [])
    (hTd : ∀ c ∈ T, isDigitDot c = true) (hTv : floatVal? T = some t)
    (hre : reason ≠ []) :
    matchPipelineHeader (pipelineHeaderLine rid T reason) = some (rid, t, reason) := by
  have e0 : pipelineHeaderLine rid T reason =
      strOf "Asset Pipeline Refresh (id=" ++
        (rid ++ (')' :: (strOf ": Total: " ++ (T ++ (' ' ::
          (strOf "seconds - Initiated by " ++ reason)))))) := by
    simp [pipelineHeaderLine, strOf]
  have e1 : run1 isHexLower (rid ++ (')' :: (strOf ": Total: " ++ (T ++ (' ' ::
      (strOf "seconds - Initiated by " ++ reason)))))) =
      some (rid, ')' :: (strOf ": Total: " ++ (T ++ (' ' ::
        (strOf "seconds - Initiated by " ++ reason))))) :=
    run1_append _ _ _ _ hr hrh (by decide)
  have e2 : dropLit (strOf "): Total: ")
      (')' :: (strOf ": Total: " ++ (T ++ (' ' ::
        (strOf "seconds - Initiated by " ++ reason))))) =
      some (T ++ (' ' :: (strOf "seconds - Initiated by " ++ reason))) := by
    have : ')' :: (strOf ": Total: " ++ (T ++ (' ' ::
        (strOf "seconds - Initiated by " ++ reason)))) =
        strOf "): Total: " ++ (T ++ (' ' ::
          (strOf "seconds - Initiated by " ++ reason))) := by simp [strOf]
    rw [this, dropLit_append]
  have e3 : run1 isDigitDot (T ++ (' ' :: (strOf "seconds - Initiated by " ++ reason))) =
      some (T, ' ' :: (strOf "seconds - Initiated by " ++ reason)) :=
    run1_append _ _ _ _ hT hTd (by decide)
  have e4 : dropLit (strOf " seconds - Initiated by ")
      (' ' :: (strOf "seconds - Initiated by " ++ reason)) = some reason := by
    have : ' ' :: (strOf "seconds - Initiated by " ++ reason) =
        strOf " seconds - Initiated by " ++ reason := by simp [strOf]
    rw [this, dropLit_append]
  have core : pipelineHeaderCore (pipelineHeaderLine rid T reason) =
      some (rid, t, reason) := by
    rw [e0]
    simp only [pipelineHeaderCore, dropLit_append, e1, e2, e3, hTv, e4]
    simp [hre]
  exact search_head _ _ _ core

/-- Substring containment of a literal that opens the string. -/
theorem hasSub_self_append (n t : Str) : hasSub n (n ++ t) = true :=
  hasSub_of_isPrefixOf (isPrefixOf_append_self n t)

end ULog

namespace ULog

/-!
## Claim counterexamples and closed evaluations
-/

/-- C1 counterexample: the three-line worker sequence with a path whose
extension maps to Materials passes every premise of the claim (the skip
rules hold, the importer line says TextureImporter) yet the single recorded
event carries category Materials, not Textures, because the worker
completion path derives the category from the extension alone. -/
theorem C1_category_counterexample :
    (parseLogFile c1CexLines).output.assetImports.map
        (fun e => (e.importerType, e.assetCategory)) =
      [(some (strOf "TextureImporter"), strOf "Materials")] ∧
    strOf "Materials" ≠ strOf "Textures" := by
  constructor
  · decide
  · decide

/-- C2 counterexample: a start-importing line for a com. package path with
an importer token and no timing is resolved through fallback pattern 2,
which applies no package-folder skip, so an AssetImportEvent with a com.
final segment and one separator is recorded. -/
theorem C2_package_skip_counterexample :
    (parseLogFile [c2CexLine]).output.assetImports.map (fun e => e.assetPath) =
      [strOf "Packages/com.unity.foo"] ∧
    comPkgCond (strOf "Packages/com.unity.foo") = true := by
  constructor
  · decide
  · decide

/-- C4 evaluation: the full pipeline records no DomainReloadStep rows for
the 0,1,1,2,0 section, because the extractor receives the header as its
first line and stops there, and the orchestrator continuation pattern
excludes untabbed step lines; the extractor loop itself, applied to the
bare step lines, builds exactly the forest the claim describes. -/
theorem C4_domain_reload_evaluation :
    (parseLogFile c4Lines).output.domainReloadSteps = [] ∧
    parseDomainReload c4StepLines 2 1 =
      [{ id := 1, lineNumber := 2, parentId := none, stepName := strOf "A",
         timeMs := natQ 1, indentLevel := 0 },
       { id := 2, lineNumber := 3, parentId := some 1, stepName := strOf "B",
         timeMs := natQ 2, indentLevel := 1 },
       { id := 3, lineNumber := 4, parentId := some 1, stepName := strOf "C",
         timeMs := natQ 3, indentLevel := 1 },
       { id := 4, lineNumber := 5, parentId := some 3, stepName := strOf "D",
         timeMs := natQ 4, indentLevel := 2 },
       { id := 5, lineNumber := 6, parentId := none, stepName := strOf "E",
         timeMs := natQ 5, indentLevel := 0 }] := by
  constructor
  · decide
  · decide

/-- C5 counterexample: the Processing assembly line that terminates the
domain-reload section matches the script compilation pattern, yet the run
records no ScriptCompilationEvent, because the terminating line is consumed
by the domain-reload branch of the dispatch chain and never re-dispatched. -/
theorem C5_redispatch_counterexample :
    matchScriptComp (strOf "Processing assembly Foo.dll, with 1 defines and 2 references") =
      some (strOf "Foo.dll", 1, 2) ∧
    (parseLogFile c5Lines).output.scriptCompilations = [] := by
  constructor
  · decide
  · decide

/-- C6 counterexample: an imports summary line sitting on the tenth line
after the header is inside the ten-line window the claim describes, yet the
recorded event leaves the import counts null, because the scan only covers
the first nine following lines. -/
theorem C6_window_counterexample :
    (parseLogFile c6CexLines).output.pipelineRefreshes.map (fun e => e.importsTotal) =
      [none] ∧
    hasSub (strOf "Imports: total=") (c6CexLines.getD 10 []) = true ∧
    matchImportsSummary (c6CexLines.getD 10 []) = some (516, 515) := by
  refine ⟨by decide, by decide, by decide⟩

/-- C7 counterexample: a worker-prefixed script compilation line is not
consumed by the worker state machine and falls through the dispatch chain
to the script compilation extractor, producing a ScriptCompilationEvent. -/
theorem C7_exclusive_counterexample :
    matchWorkerPrefix c7CexLine ≠ none ∧
    (parseLogFile [c7CexLine]).output.scriptCompilations =
      [{ lineNumber := 1, assemblyPath := strOf "Foo.dll", definesCount := 1,
         referencesCount := 2 }] := by
  constructor
  · decide
  · decide

/-- C8 counterexample: a worker import of an fbx model whose importer line
says TextureImporter records the importer as TextureImporter but the
category as 3D Models, since the worker completion path does not pass
the importer to categorization. -/
theorem C8_override_counterexample :
    (parseLogFile c8CexLines).output.assetImports.map
        (fun e => (e.importerType, e.assetCategory)) =
      [(some (strOf "TextureImporter"), strOf "3D Models")] ∧
    strOf "3D Models" ≠ strOf "Textures" := by
  constructor
  · decide
  · decide

/-- C10: parsing an empty line sequence creates a session row with zero
total lines and no extracted metadata, and records no asset import,
pipeline refresh, domain reload step, script compilation, telemetry,
operation or classified line. -/
theorem C10_empty_run :
    (parseLogFile []).session =
      { unityVersion := none, platform := none, architecture := none,
        projectName := none, totalLines := 0 } ∧
    (parseLogFile []).output.assetImports = [] ∧
    (parseLogFile []).output.pipelineRefreshes = [] ∧
    (parseLogFile []).output.domainReloadSteps = [] ∧
    (parseLogFile []).output.scriptCompilations = [] ∧
    (parseLogFile []).output.telemetryEvents = [] ∧
    (parseLogFile []).output.operations = [] ∧
    (parseLogFile []).classified = [] := by
  exact ⟨rfl, rfl, rfl, rfl, rfl, rfl, rfl, rfl⟩

end ULog

namespace ULog

/-!
## Claim theorems: dispatch-level properties
-/

/-- C5 (amended): while in domain-reload mode, a line that reaches the
domain-reload branch of the dispatch chain and fails the tabbed step
pattern ends the mode and is consumed by that branch: the accumulated
section is parsed, and no script compilation record (nor any other record)
is produced for the terminating line itself, so it is not re-dispatched. -/
theorem C5_mode_end (i : Nat) (line : Str) (rest : List Str) (st : ParseState)
    (out : ParseOutput)
    (hmode : st.inDomainReload = true)
    (hw : matchWorkerPrefix line = none)
    (h1 : hasSub (strOf "-> (artifact id:") line = false)
    (h2 : hasSub (strOf "Start importing") line = false)
    (h3 : hasSub (strOf "Asset Pipeline Refresh") line = false)
    (h4 : hasSub (strOf "Domain Reload Profiling:") line = false)
    (h5 : drContinues line = false) :
    (step i line rest st out).1.inDomainReload = false ∧
    (step i line rest st out).2.scriptCompilations = out.scriptCompilations ∧
    (step i line rest st out).2.domainReloadSteps =
      out.domainReloadSteps ++
        parseDomainReload st.domainReloadLines st.domainReloadStart
          (out.domainReloadSteps.length + 1) := by
  simp only [step, hw, mainChain, h1, chainRest, h2, h3, h4, hmode, h5]
  simp

/-- Witness for C5_mode_end at the terminating Processing assembly line of
the counterexample run. -/
theorem C5_mode_end_witness :
    (step 3 (strOf "Processing assembly Foo.dll, with 1 defines and 2 references") []
      { inDomainReload := true,
        domainReloadLines := [strOf "Domain Reload Profiling:", strOf "\tB (2ms)"],
        domainReloadStart := 1, workerStates := [], pendingImports := [] }
      emptyOutput).1.inDomainReload = false ∧
    (step 3 (strOf "Processing assembly Foo.dll, with 1 defines and 2 references") []
      { inDomainReload := true,
        domainReloadLines := [strOf "Domain Reload Profiling:", strOf "\tB (2ms)"],
        domainReloadStart := 1, workerStates := [], pendingImports := [] }
      emptyOutput).2.scriptCompilations = emptyOutput.scriptCompilations ∧
    (step 3 (strOf "Processing assembly Foo.dll, with 1 defines and 2 references") []
      { inDomainReload := true,
        domainReloadLines := [strOf "Domain Reload Profiling:", strOf "\tB (2ms)"],
        domainReloadStart := 1, workerStates := [], pendingImports := [] }
      emptyOutput).2.domainReloadSteps =
      emptyOutput.domainReloadSteps ++
        parseDomainReload [strOf "Domain Reload Profiling:", strOf "\tB (2ms)"] 1
          (emptyOutput.domainReloadSteps.length + 1) :=
  C5_mode_end 3 _ [] _ emptyOutput rfl (by decide) (by decide) (by decide)
    (by decide) (by decide) (by decide)

end ULog

namespace ULog

/-- Fields of a worker completion event: path and line number come from
the stored worker state, and the package skip was checked. -/
theorem workerCompletionEvent_fields {ws : WorkerState} {aid : Str} {secs : ℚ}
    {e : AssetImportEvent} (h : workerCompletionEvent ws aid secs = some e) :
    e.assetPath = ws.assetPath ∧ e.lineNumber = ws.lineNumber ∧
    comPkgCond ws.assetPath = false := by
  simp only [workerCompletionEvent] at h
  split_ifs at h with hc1 hc2
  simp only [Option.some.injEq] at h
  subst h
  refine ⟨rfl, rfl, ?_⟩
  simp only [comPkgCond]
  rw [Bool.eq_false_iff]
  intro hcontra
  rw [Bool.and_eq_true, decide_eq_true_eq] at hcontra
  exact hc1 hcontra

/-- The dispatch chain leaves the pending table and the asset imports
untouched when the start-importing branch is not taken. -/
theorem chainRest_no_import (i : Nat) (line : Str) (rest : List Str)
    (st : ParseState) (out : ParseOutput)
    (hni : ¬(hasSub (strOf "Start importing") line = true ∧
            ¬ hasSub (strOf "[Worker") line = true)) :
    (chainRest i line rest st out).1.pendingImports = st.pendingImports ∧
    (chainRest i line rest st out).2.assetImports = out.assetImports := by
  unfold chainRest
  rw [if_neg hni]
  split_ifs <;> (repeat' split) <;> simp_all

end ULog

namespace ULog

/-- C7 (amended): a worker-prefixed line never reaches the guarded
non-worker import branches: the pending-import table is unchanged and any
asset import event recorded at this step carries the path and start line of
an entry of the worker state table (the worker completion); other record
kinds can still be produced by fall-through, as the counterexample shows. -/
theorem C7_worker_guarded (i : Nat) (line : Str) (rest : List Str)
    (st : ParseState) (out : ParseOutput) (num : Nat) (wrest : Str)
    (hw : matchWorkerPrefix line = some (num, wrest)) :
    (step i line rest st out).1.pendingImports = st.pendingImports ∧
    (∀ e ∈ (step i line rest st out).2.assetImports,
      e ∈ out.assetImports ∨
        ∃ n ws, alistGet? st.workerStates n = some ws ∧
          e.assetPath = ws.assetPath ∧ e.lineNumber = ws.lineNumber) := by
  have hpre : hasSub (strOf "[Worker") line = true :=
    hasSub_of_isPrefixOf (matchWorkerPrefix_opens hw)
  have hni : ¬(hasSub (strOf "Start importing") line = true ∧
      ¬ hasSub (strOf "[Worker") line = true) := by
    rintro ⟨-, hq⟩; exact hq hpre
  simp only [step, hw]
  cases hwh : workerHandle i num wrest st out with
  | none =>
    have hmc : mainChain i line rest st out = chainRest i line rest st out := by
      unfold mainChain
      rw [if_neg (by rintro ⟨-, hq⟩; exact hq hpre)]
    rw [hmc]
    have hcr := chainRest_no_import i line rest st out hni
    refine ⟨hcr.1, ?_⟩
    intro e he
    rw [hcr.2] at he
    exact Or.inl he
  | some r =>
    simp only [workerHandle] at hwh
    split at hwh
    · simp only [Option.some.injEq] at hwh
      subst hwh
      exact ⟨rfl, fun e he => Or.inl he⟩
    · split at hwh
      · cases hwh
        rename_i hst2
        split at hst2
        all_goals try exact Option.noConfusion hst2
        split_ifs at hst2 with himp
        all_goals try exact Option.noConfusion hst2
        split at hst2
        all_goals try exact Option.noConfusion hst2
        simp only [Option.some.injEq] at hst2
        subst hst2
        exact ⟨rfl, fun e he => Or.inl he⟩
      · split_ifs at hwh with hart
        all_goals try exact Option.noConfusion hwh
        split at hwh
        all_goals try exact Option.noConfusion hwh
        split at hwh
        · rename_i hart1 hget x0 ev hev
          simp only [Option.some.injEq] at hwh
          subst hwh
          refine ⟨rfl, ?_⟩
          intro e he
          simp only [List.mem_append, List.mem_singleton] at he
          rcases he with he | he
          · exact Or.inl he
          · subst he
            obtain ⟨hp, hl, -⟩ := workerCompletionEvent_fields hev
            exact Or.inr ⟨num, _, hget, hp, hl⟩
        · simp only [Option.some.injEq] at hwh
          subst hwh
          exact ⟨rfl, fun e he => Or.inl he⟩

end ULog

namespace ULog

/-- Witness for C7_worker_guarded at the worker-prefixed script line of the
counterexample. -/
theorem C7_worker_guarded_witness :
    (step 1 c7CexLine [] initState emptyOutput).1.pendingImports = initState.pendingImports ∧
    (∀ e ∈ (step 1 c7CexLine [] initState emptyOutput).2.assetImports,
      e ∈ emptyOutput.assetImports ∨
        ∃ n ws, alistGet? initState.workerStates n = some ws ∧
          e.assetPath = ws.assetPath ∧ e.lineNumber = ws.lineNumber) :=
  C7_worker_guarded 1 c7CexLine [] initState emptyOutput 0
    (strOf "Processing assembly Foo.dll, with 1 defines and 2 references") (by decide)

end ULog


namespace ULog

/-- Forcing rule of the categorizer (lines 297 to 303): an importer of
exactly TextureImporter yields category Textures whatever the path. -/
theorem categorizeAsset_texture (p : Str) :
    (categorizeAsset p (some (strOf "TextureImporter"))).2 = strOf "Textures" := by
  simp only [categorizeAsset]
  split_ifs with h
  · rfl
  · exact absurd (by decide) h

/-- C2 (amended): the package-folder skip governs the worker completion
path (first conjunct) and the primary single-line path (second conjunct);
on fallback pattern 1 only the weaker form holds, with the extra
separator-in-path conjunct of line 366 (third conjunct).  Fallback
pattern 2 and pending resolution apply no skip, as the counterexample
shows. -/
theorem C2_skip_scope :
    (∀ (ws : WorkerState) (aid : Str) (secs : ℚ) (e : AssetImportEvent),
      workerCompletionEvent ws aid secs = some e → comPkgCond e.assetPath = false) ∧
    (∀ (line : Str) (i : Nat) (e : AssetImportEvent),
      (matchPrimary line).isSome = true → e ∈ (parseAssetImport line i).1 →
      comPkgCond e.assetPath = false) ∧
    (∀ (line : Str) (i : Nat) (e : AssetImportEvent),
      matchPrimary line = none → (matchStartEnd line).isSome = true →
      e ∈ (parseAssetImport line i).1 →
      ¬(comPkgCond e.assetPath = true ∧ '/' ∈ e.assetPath)) := by
  refine ⟨?_, ?_, ?_⟩
  · intro ws aid secs e h
    obtain ⟨hp, -, hc⟩ := workerCompletionEvent_fields h
    rw [hp]
    exact hc
  · intro line i e hp he
    simp only [parseAssetImport] at he
    split at he
    · split_ifs at he with hc1 hc2
      all_goals try dsimp only at he
      all_goals try exact absurd he (List.not_mem_nil e)
      try simp only [List.mem_singleton] at he
      subst he
      simp only [comPkgCond]
      rw [Bool.eq_false_iff]
      intro hcontra
      rw [Bool.and_eq_true, decide_eq_true_eq] at hcontra
      exact hc1 hcontra
    · rename_i hm
      rw [hm] at hp
      simp at hp
  · intro line i e hp hs he
    simp only [parseAssetImport] at he
    split at he
    · rename_i m hm
      rw [hp] at hm
      exact Option.noConfusion hm
    · split at he
      · split_ifs at he with hc1 hc2
        all_goals try dsimp only at he
        all_goals try exact absurd he (List.not_mem_nil e)
        try simp only [List.mem_singleton] at he
        subst he
        rintro ⟨hcc, hsl⟩
        simp only [comPkgCond, Bool.and_eq_true, decide_eq_true_eq] at hcc
        exact hc1 ⟨hcc.1, hsl, hcc.2⟩
      · rename_i hm
        rw [hm] at hs
        simp at hs

/-- Witness for C2_skip_scope at a concrete worker completion of a png
asset. -/
theorem C2_skip_scope_witness :
    comPkgCond (strOf "Assets/a.png") = false := by
  have h := C2_skip_scope.1
    { assetPath := strOf "Assets/a.png", guid := strOf "abcd",
      lineNumber := 3, importerType := none } (strOf "ff") (natQ 1)
    { lineNumber := 3, assetPath := strOf "Assets/a.png",
      assetName := strOf "a.png", assetType := strOf ".png",
      assetCategory := strOf "Textures", guid := strOf "abcd",
      artifactId := some (strOf "ff"),
      importerType := some (strOf "TextureImporter"),
      timeSeconds := natQ 1, timeMs := natQ 1000 } (by decide)
  exact h

/-- C8 (amended): an importer of exactly TextureImporter forces category
Textures on every path through the single-line import parser (all three
patterns) and on non-worker pending resolution; the worker completion
path is exempt, as the counterexample shows, since line 901 passes
no importer to the categorizer. -/
theorem C8_importer_override_nonworker :
    (∀ (line : Str) (i : Nat) (e : AssetImportEvent),
      e ∈ (parseAssetImport line i).1 →
      e.importerType = some (strOf "TextureImporter") →
      e.assetCategory = strOf "Textures") ∧
    (∀ (st : ParseState) (out : ParseOutput) (aid : Str) (secs : ℚ)
        (e : AssetImportEvent),
      e ∈ (resolvePendingLast st out aid secs).2.assetImports →
      e ∈ out.assetImports ∨
        (e.importerType = some (strOf "TextureImporter") →
          e.assetCategory = strOf "Textures")) := by
  constructor
  · intro line i e he himp
    simp only [parseAssetImport] at he
    split at he
    · split_ifs at he with hc1 hc2
      all_goals try dsimp only at he
      all_goals try exact absurd he (List.not_mem_nil e)
      try simp only [List.mem_singleton] at he
      subst he
      try dsimp only [] at himp ⊢
      rw [himp]
      exact categorizeAsset_texture _
    · split at he
      · split_ifs at he with hc1 hc2
        all_goals try dsimp only at he
        all_goals try exact absurd he (List.not_mem_nil e)
        try simp only [List.mem_singleton] at he
        subst he
        try dsimp only [] at himp ⊢
        simp only [Option.some.injEq] at himp
        rw [himp]
        exact categorizeAsset_texture _
      · split at he
        · split_ifs at he with hc1 hc2
          all_goals try dsimp only at he
          all_goals try exact absurd he (List.not_mem_nil e)
          all_goals simp only [List.mem_singleton] at he
          all_goals subst he
          all_goals try dsimp only at himp
          all_goals try exact Option.noConfusion himp
          all_goals simp only [Option.some.injEq] at himp
          all_goals rw [himp]
          all_goals dsimp only
          all_goals exact categorizeAsset_texture _
        · simp at he
  · intro st out aid secs e he
    simp only [resolvePendingLast] at he
    split at he
    · split_ifs at he with hg
      · split at he
        · simp only [List.mem_append, List.mem_singleton] at he
          rcases he with he | he
          · exact Or.inl he
          · subst he
            refine Or.inr ?_
            intro himp
            try dsimp only [] at himp ⊢
            simp only [Option.some.injEq] at himp
            rw [himp]
            exact categorizeAsset_texture _
        · exact Or.inl he
      · exact Or.inl he
    · exact Or.inl he

/-- Witness for C8_importer_override_nonworker at a fallback pattern 2
line carrying a TextureImporter token on a mat path. -/
theorem C8_importer_override_nonworker_witness :
    AssetImportEvent.assetCategory
      { lineNumber := 1, assetPath := strOf "Assets/x.mat",
        assetName := strOf "x.mat", assetType := strOf ".mat",
        assetCategory := strOf "Textures", guid := strOf "abcd",
        artifactId := none, importerType := some (strOf "TextureImporter"),
        timeSeconds := mkRat 1 1000, timeMs := natQ 1 } = strOf "Textures" :=
  C8_importer_override_nonworker.1
    (strOf "Start importing Assets/x.mat using Guid(abcd) (TextureImporter)") 1
    { lineNumber := 1, assetPath := strOf "Assets/x.mat",
      assetName := strOf "x.mat", assetType := strOf ".mat",
      assetCategory := strOf "Textures", guid := strOf "abcd",
      artifactId := none, importerType := some (strOf "TextureImporter"),
      timeSeconds := mkRat 1 1000, timeMs := natQ 1 }
    (by decide) (by decide)

end ULog

namespace ULog

/-- Containment of a needle fails when the needle head never occurs in
the haystack. -/
theorem hasSub_head_notMem {c : Char} (n s : Str) (h : c ∉ s) :
    hasSub (c :: n) s = false := by
  induction s with
  | nil => simp [hasSub]
  | cons x t ih =>
    have hcx : (c :: n).isPrefixOf (x :: t) = false := by
      rw [Bool.eq_false_iff]
      intro hp
      rw [List.isPrefixOf_iff_prefix, List.cons_prefix_cons] at hp
      exact h (hp.1 ▸ List.mem_cons_self x t)
    simp only [hasSub, hcx, Bool.false_or]
    exact ih (fun hm => h (List.mem_cons_of_mem _ hm))

/-- C3: a non-worker artifact completion line processed with a non-empty
pending table resolves exactly the most recently inserted entry: one
event combining that entry with the artifact id and N*1000 ms is
appended, the entry is removed, and the rest of the table and state is
unchanged.  The hypotheses say the line is canonical (hex artifact id,
numeric duration) and the resolved guid is fresh among the earlier
entries, as Python dict keys are. -/
theorem C3_pending_lifo (i : Nat) (rest : List Str) (st : ParseState)
    (out : ParseOutput) (A N : Str) (t : ℚ) (ps : List (Str × PendingImport))
    (g : Str) (e : PendingImport)
    (hA : A ≠ []) (hAh : ∀ c ∈ A, isHexLower c = true)
    (hN : N ≠ []) (hNd : ∀ c ∈ N, isDigitDot c = true)
    (hNv : floatVal? N = some t)
    (hg : g ≠ [])
    (hpend : st.pendingImports = ps ++ [(g, e)])
    (hnodup : ∀ kv ∈ ps, kv.1 ≠ g) :
    step i (artifactCompletionLine A N) rest st out =
      ({ st with pendingImports := ps },
       { out with assetImports := out.assetImports ++
          [{ lineNumber := e.lineNumber, assetPath := e.assetPath,
             assetName := pyName e.assetPath,
             assetType := (categorizeAsset e.assetPath (some e.importerType)).1,
             assetCategory := (categorizeAsset e.assetPath (some e.importerType)).2,
             guid := g, artifactId := some A,
             importerType := some e.importerType, timeSeconds := t,
             timeMs := qMul1000 t }] }) := by
  have hline : artifactCompletionLine A N = '-' ::
      (strOf "> (artifact id: " ++ [quoteChar] ++ A ++ [quoteChar] ++
        strOf ") in " ++ N ++ strOf " seconds") := by
    simp [artifactCompletionLine, strOf]
  have hwp : matchWorkerPrefix (artifactCompletionLine A N) = none := by
    rw [hline]
    exact matchWorkerPrefix_none _ _ (by decide)
  have hsub : hasSub (strOf "-> (artifact id:") (artifactCompletionLine A N) = true := by
    have h0 : artifactCompletionLine A N = strOf "-> (artifact id:" ++
        (strOf " " ++ [quoteChar] ++ A ++ [quoteChar] ++
          strOf ") in " ++ N ++ strOf " seconds") := by
      simp [artifactCompletionLine, strOf]
    rw [h0]
    exact hasSub_self_append _ _
  have hbr : '[' ∉ artifactCompletionLine A N := by
    intro hmem
    simp only [artifactCompletionLine, List.append_assoc, List.mem_append,
      List.mem_cons, List.mem_singleton] at hmem
    rcases hmem with h | h | h | h | h | h | h
    · exact absurd h (by decide)
    · exact absurd h (by decide)
    · exact absurd (hAh _ h) (by decide)
    · exact absurd h (by decide)
    · exact absurd h (by decide)
    · exact absurd (hNd _ h) (by decide)
    · exact absurd h (by decide)
  have hnw : hasSub (strOf "[Worker") (artifactCompletionLine A N) = false := by
    have h1 : strOf "[Worker" = '[' :: strOf "Worker" := by decide
    rw [h1]
    exact hasSub_head_notMem _ _ hbr
  have hart := matchArtifact_canonical A N t hA hAh hN hNd hNv
  simp only [step, hwp, mainChain, hart]
  rw [if_pos (by rw [hsub, hnw]; exact ⟨rfl, by simp⟩)]
  rw [if_pos (by rw [hpend]; simp)]
  simp only [resolvePendingLast, hpend, List.getLast?_concat]
  rw [if_pos hg]
  rw [alistGet?_append_notin hnodup, alistErase_append_notin hnodup]

end ULog

namespace ULog

/-- Witness for C3_pending_lifo: one pending png import resolved by a
completion line with duration 2.0 seconds. -/
theorem C3_pending_lifo_witness :
    step 9 (artifactCompletionLine (strOf "abc") (strOf "2.0")) []
      { initState with pendingImports :=
          [(strOf "ab", { assetPath := strOf "Assets/p.png", guid := strOf "ab",
                          lineNumber := 5, importerType := strOf "TextureImporter" })] }
      emptyOutput =
      ({ initState with pendingImports := [] },
       { emptyOutput with assetImports := [] ++
          [{ lineNumber := 5, assetPath := strOf "Assets/p.png",
             assetName := pyName (strOf "Assets/p.png"),
             assetType := (categorizeAsset (strOf "Assets/p.png")
               (some (strOf "TextureImporter"))).1,
             assetCategory := (categorizeAsset (strOf "Assets/p.png")
               (some (strOf "TextureImporter"))).2,
             guid := strOf "ab", artifactId := some (strOf "abc"),
             importerType := some (strOf "TextureImporter"),
             timeSeconds := (2 : ℚ), timeMs := qMul1000 (2 : ℚ) }] }) :=
  C3_pending_lifo 9 []
    { initState with pendingImports :=
        [(strOf "ab", { assetPath := strOf "Assets/p.png", guid := strOf "ab",
                        lineNumber := 5, importerType := strOf "TextureImporter" })] }
    emptyOutput (strOf "abc") (strOf "2.0") 2 []
    (strOf "ab")
    { assetPath := strOf "Assets/p.png", guid := strOf "ab",
      lineNumber := 5, importerType := strOf "TextureImporter" }
    (by decide) (by decide) (by decide) (by decide) (by decide) (by decide)
    (by decide) (by simp)

end ULog

namespace ULog

/-- C6 (amended): a canonical pipeline refresh header line records exactly
one PipelineRefreshEvent, whose optional summary fields come from the
scan of the first NINE lines following the header (the slice lines[1:10]
of the context covers nine following lines, so a field on the tenth is
missed, as the counterexample shows).  The hypotheses say the header
pieces are canonical and the line does not also trigger an earlier branch
of the dispatch chain. -/
theorem C6_header_window (i : Nat) (rest : List Str) (st : ParseState)
    (out : ParseOutput) (rid T reason : Str) (t : ℚ)
    (hr : rid ≠ []) (hrh : ∀ c ∈ rid, isHexLower c = true)
    (hT : T ≠ []) (hTd : ∀ c ∈ T, isDigitDot c = true)
    (hTv : floatVal? T = some t) (hre : reason ≠ [])
    (hna : hasSub (strOf "-> (artifact id:") (pipelineHeaderLine rid T reason) = false)
    (hns : hasSub (strOf "Start importing") (pipelineHeaderLine rid T reason) = false)
    (hdr : st.inDomainReload = false) :
    step i (pipelineHeaderLine rid T reason) rest st out =
      (st, { out with pipelineRefreshes := out.pipelineRefreshes ++
        [{ lineNumber := i, refreshId := rid, totalTimeSeconds := t,
           initiatedBy := reason,
           importsTotal := (scanSummary (rest.take 9)).importsTotal,
           importsActual := (scanSummary (rest.take 9)).importsActual,
           assetDbProcessTimeMs := (scanSummary (rest.take 9)).assetDbProcessMs,
           assetDbCallbackTimeMs := (scanSummary (rest.take 9)).assetDbCallbackMs,
           domainReloads := (scanSummary (rest.take 9)).domainReloads,
           domainReloadTimeMs := (scanSummary (rest.take 9)).domainReloadMs,
           compileTimeMs := (scanSummary (rest.take 9)).compileMs,
           scriptingOtherMs := (scanSummary (rest.take 9)).scriptingOtherMs }] }) := by
  have hwp : matchWorkerPrefix (pipelineHeaderLine rid T reason) = none := by
    have h0 : pipelineHeaderLine rid T reason = 'A' ::
        (strOf "sset Pipeline Refresh (id=" ++ rid ++ strOf "): Total: " ++ T ++
          strOf " seconds - Initiated by " ++ reason) := by
      simp [pipelineHeaderLine, strOf]
    rw [h0]
    exact matchWorkerPrefix_none _ _ (by decide)
  have hsubp : hasSub (strOf "Asset Pipeline Refresh") (pipelineHeaderLine rid T reason) = true := by
    have h0 : pipelineHeaderLine rid T reason = strOf "Asset Pipeline Refresh" ++
        (strOf " (id=" ++ rid ++ strOf "): Total: " ++ T ++
          strOf " seconds - Initiated by " ++ reason) := by
      simp [pipelineHeaderLine, strOf]
    rw [h0]
    exact hasSub_self_append _ _
  have hph := matchPipelineHeader_canonical rid T reason t hr hrh hT hTd hTv hre
  have hppr : parsePipelineRefresh (pipelineHeaderLine rid T reason :: rest.take 10) i =
      some { lineNumber := i, refreshId := rid, totalTimeSeconds := t,
             initiatedBy := reason,
             importsTotal := (scanSummary (rest.take 9)).importsTotal,
             importsActual := (scanSummary (rest.take 9)).importsActual,
             assetDbProcessTimeMs := (scanSummary (rest.take 9)).assetDbProcessMs,
             assetDbCallbackTimeMs := (scanSummary (rest.take 9)).assetDbCallbackMs,
             domainReloads := (scanSummary (rest.take 9)).domainReloads,
             domainReloadTimeMs := (scanSummary (rest.take 9)).domainReloadMs,
             compileTimeMs := (scanSummary (rest.take 9)).compileMs,
             scriptingOtherMs := (scanSummary (rest.take 9)).scriptingOtherMs } := by
    simp only [parsePipelineRefresh, hph, List.take_take]
    norm_num
  simp only [step, hwp, mainChain]
  rw [if_neg (by rw [hna]; simp)]
  simp only [chainRest]
  rw [if_neg (by rw [hns]; simp)]
  rw [if_pos hsubp]
  simp only [hppr]

end ULog

namespace ULog

/-- Witness for C6_header_window: an imports summary on the ninth
following line is inside the window. -/
theorem C6_header_window_witness :
    step 1 (pipelineHeaderLine (strOf "abc") (strOf "2.5") (strOf "Refresh"))
      (List.replicate 8 (strOf "filler") ++
        [strOf "Imports: total=516 (actual=515, local cache=1, cache server=0)"])
      initState emptyOutput =
      (initState, { emptyOutput with pipelineRefreshes := [] ++
        [{ lineNumber := 1, refreshId := strOf "abc", totalTimeSeconds := mkRat 5 2,
           initiatedBy := strOf "Refresh",
           importsTotal := (scanSummary ((List.replicate 8 (strOf "filler") ++
             [strOf "Imports: total=516 (actual=515, local cache=1, cache server=0)"]).take 9)).importsTotal,
           importsActual := (scanSummary ((List.replicate 8 (strOf "filler") ++
             [strOf "Imports: total=516 (actual=515, local cache=1, cache server=0)"]).take 9)).importsActual,
           assetDbProcessTimeMs := (scanSummary ((List.replicate 8 (strOf "filler") ++
             [strOf "Imports: total=516 (actual=515, local cache=1, cache server=0)"]).take 9)).assetDbProcessMs,
           assetDbCallbackTimeMs := (scanSummary ((List.replicate 8 (strOf "filler") ++
             [strOf "Imports: total=516 (actual=515, local cache=1, cache server=0)"]).take 9)).assetDbCallbackMs,
           domainReloads := (scanSummary ((List.replicate 8 (strOf "filler") ++
             [strOf "Imports: total=516 (actual=515, local cache=1, cache server=0)"]).take 9)).domainReloads,
           domainReloadTimeMs := (scanSummary ((List.replicate 8 (strOf "filler") ++
             [strOf "Imports: total=516 (actual=515, local cache=1, cache server=0)"]).take 9)).domainReloadMs,
           compileTimeMs := (scanSummary ((List.replicate 8 (strOf "filler") ++
             [strOf "Imports: total=516 (actual=515, local cache=1, cache server=0)"]).take 9)).compileMs,
           scriptingOtherMs := (scanSummary ((List.replicate 8 (strOf "filler") ++
             [strOf "Imports: total=516 (actual=515, local cache=1, cache server=0)"]).take 9)).scriptingOtherMs }] }) :=
  C6_header_window 1
    (List.replicate 8 (strOf "filler") ++
      [strOf "Imports: total=516 (actual=515, local cache=1, cache server=0)"])
    initState emptyOutput (strOf "abc") (strOf "2.5") (strOf "Refresh") (mkRat 5 2)
    (by decide) (by decide) (by decide) (by decide) (by decide) (by decide)
    (by decide) (by decide) rfl

end ULog

namespace ULog

/-- Lookup on a one-entry table at its own key. -/
theorem alistGet?_singleton_self {κ α : Type} [DecidableEq κ] (k : κ) (v : α) :
    alistGet? [(k, v)] k = some v := by
  simp [alistGet?]

/-- Store on a one-entry table at its own key. -/
theorem alistUpsert_singleton_self {κ α : Type} [DecidableEq κ] (k : κ) (v w : α) :
    alistUpsert [(k, v)] k w = [(k, w)] := by
  simp [alistUpsert]

/-- Delete on a one-entry table at its own key. -/
theorem alistErase_singleton_self {κ α : Type} [DecidableEq κ] (k : κ) (v : α) :
    alistErase [(k, v)] k = [] := by
  simp [alistErase]

/-- C1 (amended): for every worker id W, the canonical three-line worker
sequence records exactly one AssetImportEvent with path P, guid G,
artifact id A, importer TextureImporter, duration one half second (500
ms, as the trailing conjuncts certify) and the line number of the
Start-importing line; the category however comes from the extension
alone, categorizeAsset with no importer, since line 901 passes none.  The
hypotheses make the pieces canonical (digit worker id, hex guid and
artifact id, a path passing both skip rules) and pin the lazy path group
with the usual disambiguation condition. -/
theorem C1_worker_import (W P G A : Str)
    (hW : W ≠ []) (hWd : ∀ c ∈ W, c.isDigit = true)
    (hP : P ≠ [])
    (hG : G ≠ []) (hGh : ∀ c ∈ G, isHexLower c = true)
    (hA : A ≠ []) (hAh : ∀ c ∈ A, isHexLower c = true)
    (hfail : ∀ j, 1 ≤ j → j < P.length →
      guidEndTail (P.drop j ++ (strOf " using Guid(" ++ G ++ strOf ")")) = none)
    (hskip1 : comPkgCond P = false)
    (hskip2 : '.' ∈ pySplitLast P) :
    (parseLogFile
      [workerPre W ++ startImportLine P G,
       workerPre W ++ strOf "(TextureImporter)",
       workerPre W ++ artifactCompletionLine A (strOf "0.500")]).output.assetImports =
      [{ lineNumber := 1, assetPath := P, assetName := pyName P,
         assetType := (categorizeAsset P none).1,
         assetCategory := (categorizeAsset P none).2, guid := G,
         artifactId := some A, importerType := some (strOf "TextureImporter"),
         timeSeconds := mkRat 1 2, timeMs := qMul1000 (mkRat 1 2) }] ∧
    mkRat 1 2 = (5 : ℚ)/10 ∧ qMul1000 (mkRat 1 2) = 500 := by
  refine ⟨?_, by norm_num [Rat.mkRat_eq_div], by rw [qMul1000_eq]; norm_num [Rat.mkRat_eq_div]⟩
  have e1 : workerPre W ++ startImportLine P G =
      workerPre W ++ ('S' :: (strOf "tart importing " ++ P ++
        strOf " using Guid(" ++ G ++ strOf ")")) := by
    simp [startImportLine, strOf]
  have e1r : 'S' :: (strOf "tart importing " ++ P ++
      strOf " using Guid(" ++ G ++ strOf ")") = startImportLine P G := by
    simp [startImportLine, strOf]
  have hwp1 : matchWorkerPrefix (workerPre W ++ startImportLine P G) =
      some (digitsToNat W, startImportLine P G) := by
    rw [e1, matchWorkerPrefix_canonical W 'S' _ hW hWd (by decide), e1r]
  have hss1 : hasSub (strOf "Start importing") (startImportLine P G) = true := by
    have h0 : startImportLine P G = strOf "Start importing" ++
        (' ' :: (P ++ strOf " using Guid(" ++ G ++ strOf ")")) := by
      simp [startImportLine, strOf]
    rw [h0]
    exact hasSub_self_append _ _
  have hse1 := matchStartEnd_canonical P G hP hG hGh hfail
  have h1 : step 1 (workerPre W ++ startImportLine P G)
      [workerPre W ++ strOf "(TextureImporter)",
       workerPre W ++ artifactCompletionLine A (strOf "0.500")]
      initState emptyOutput =
      ({ initState with workerStates := [(digitsToNat W, ⟨P, G, 1, none⟩)] },
       emptyOutput) := by
    simp only [step, hwp1, workerHandle, hss1, hse1, if_true]
    rfl
  have hwp2 : matchWorkerPrefix (workerPre W ++ strOf "(TextureImporter)") =
      some (digitsToNat W, strOf "(TextureImporter)") := by
    have h0 : strOf "(TextureImporter)" = '(' :: strOf "TextureImporter)" := by decide
    rw [h0, matchWorkerPrefix_canonical W '(' _ hW hWd (by decide)]
  have h2 : step 2 (workerPre W ++ strOf "(TextureImporter)")
      [workerPre W ++ artifactCompletionLine A (strOf "0.500")]
      ({ initState with workerStates := [(digitsToNat W, ⟨P, G, 1, none⟩)] })
      emptyOutput =
      ({ initState with workerStates :=
          [(digitsToNat W, ⟨P, G, 1, some (strOf "TextureImporter")⟩)] },
       emptyOutput) := by
    have d1 : hasSub (strOf "Start importing") (strOf "(TextureImporter)") = false := by
      decide
    have d2 : matchWorkerImporter (strOf "(TextureImporter)") =
        some (strOf "TextureImporter") := by decide
    simp only [step, hwp2, workerHandle, d1, Bool.false_eq_true, if_false,
      alistGet?_singleton_self, d2, if_true]
    rw [if_neg (by decide)]
    simp only [alistUpsert_singleton_self]
  have hNv : floatVal? (strOf "0.500") = some (mkRat 1 2) := by decide
  have hart := matchArtifact_canonical A (strOf "0.500") (mkRat 1 2) hA hAh
    (by decide) (by decide) hNv
  have e3 : artifactCompletionLine A (strOf "0.500") =
      '-' :: (strOf "> (artifact id: " ++ [quoteChar] ++ A ++ [quoteChar] ++
        strOf ") in " ++ strOf "0.500" ++ strOf " seconds") := by
    simp [artifactCompletionLine, strOf]
  have e3r : '-' :: (strOf "> (artifact id: " ++ [quoteChar] ++ A ++ [quoteChar] ++
      strOf ") in " ++ strOf "0.500" ++ strOf " seconds") =
      artifactCompletionLine A (strOf "0.500") := by
    simp [artifactCompletionLine, strOf]
  have hwp3 : matchWorkerPrefix (workerPre W ++ artifactCompletionLine A (strOf "0.500")) =
      some (digitsToNat W, artifactCompletionLine A (strOf "0.500")) := by
    rw [e3, matchWorkerPrefix_canonical W '-' _ hW hWd (by decide), e3r]
  have hS3 : hasSub (strOf "Start importing")
      (artifactCompletionLine A (strOf "0.500")) = false := by
    rw [show strOf "Start importing" = 'S' :: strOf "tart importing" from by decide]
    refine hasSub_head_notMem _ _ ?_
    intro hmem
    simp only [artifactCompletionLine, List.append_assoc, List.mem_append,
      List.mem_cons, List.mem_singleton] at hmem
    rcases hmem with h | h | h | h | h | h | h
    · exact absurd h (by decide)
    · exact absurd h (by decide)
    · exact absurd (hAh _ h) (by decide)
    · exact absurd h (by decide)
    · exact absurd h (by decide)
    · exact absurd h (by decide)
    · exact absurd h (by decide)
  have hsub3 : hasSub (strOf "-> (artifact id:")
      (artifactCompletionLine A (strOf "0.500")) = true := by
    have h0 : artifactCompletionLine A (strOf "0.500") = strOf "-> (artifact id:" ++
        (strOf " " ++ [quoteChar] ++ A ++ [quoteChar] ++
          strOf ") in " ++ strOf "0.500" ++ strOf " seconds") := by
      simp [artifactCompletionLine, strOf]
    rw [h0]
    exact hasSub_self_append _ _
  have hev : workerCompletionEvent ⟨P, G, 1, some (strOf "TextureImporter")⟩ A (mkRat 1 2) =
      some { lineNumber := 1, assetPath := P, assetName := pyName P,
             assetType := (categorizeAsset P none).1,
             assetCategory := (categorizeAsset P none).2, guid := G,
             artifactId := some A, importerType := some (strOf "TextureImporter"),
             timeSeconds := mkRat 1 2, timeMs := qMul1000 (mkRat 1 2) } := by
    have hc1 : ¬((strOf "com.").isPrefixOf (pySplitLast P) = true ∧ P.count '/' ≤ 2) := by
      intro hcontra
      have hb : comPkgCond P = true := by
        rw [comPkgCond, Bool.and_eq_true, decide_eq_true_eq]
        exact hcontra
      rw [hskip1] at hb
      exact Bool.noConfusion hb
    have hc2 : ¬('.' ∉ pySplitLast P) := fun hcon => hcon hskip2
    simp only [workerCompletionEvent]
    rw [if_neg hc1, if_neg hc2]
    rw [if_neg (show ¬(strOf "TextureImporter" = strOf "-1" ∨
      strOf "TextureImporter" = ([] : Str)) from by decide)]
  have h3 : step 3 (workerPre W ++ artifactCompletionLine A (strOf "0.500")) []
      ({ initState with workerStates :=
          [(digitsToNat W, ⟨P, G, 1, some (strOf "TextureImporter")⟩)] })
      emptyOutput =
      (initState,
       { emptyOutput with assetImports :=
          [{ lineNumber := 1, assetPath := P, assetName := pyName P,
             assetType := (categorizeAsset P none).1,
             assetCategory := (categorizeAsset P none).2, guid := G,
             artifactId := some A, importerType := some (strOf "TextureImporter"),
             timeSeconds := mkRat 1 2, timeMs := qMul1000 (mkRat 1 2) }] }) := by
    simp only [step, hwp3, workerHandle, hS3, Bool.false_eq_true, if_false,
      alistGet?_singleton_self]
    rw [if_neg (by simp)]
    rw [if_pos hsub3]
    simp only [hart, alistGet?_singleton_self, alistErase_singleton_self, hev]
    rfl
  simp only [parseLogFile, processLines, h1, h2, h3]

end ULog

namespace ULog

/-- Witness for C1_worker_import on a png asset imported by worker 0. -/
theorem C1_worker_import_witness :
    (parseLogFile
      [workerPre (strOf "0") ++ startImportLine (strOf "a.png") (strOf "abc"),
       workerPre (strOf "0") ++ strOf "(TextureImporter)",
       workerPre (strOf "0") ++ artifactCompletionLine (strOf "def0") (strOf "0.500")]).output.assetImports =
      [{ lineNumber := 1, assetPath := strOf "a.png",
         assetName := pyName (strOf "a.png"),
         assetType := (categorizeAsset (strOf "a.png") none).1,
         assetCategory := (categorizeAsset (strOf "a.png") none).2,
         guid := strOf "abc", artifactId := some (strOf "def0"),
         importerType := some (strOf "TextureImporter"),
         timeSeconds := mkRat 1 2, timeMs := qMul1000 (mkRat 1 2) }] ∧
    mkRat 1 2 = (5 : ℚ)/10 ∧ qMul1000 (mkRat 1 2) = 500 :=
  C1_worker_import (strOf "0") (strOf "a.png") (strOf "abc") (strOf "def0")
    (by decide) (by decide) (by decide) (by decide) (by decide) (by decide)
    (by decide)
    (by
      intro j h1 h2
      rw [show (strOf "a.png").length = 5 from rfl] at h2
      interval_cases j <;> decide)
    (by decide) (by decide)

end ULog

namespace ULog

/-- Every event of the single-line import parser carries the current line
number. -/
theorem parseAssetImport_lineNumber (line : Str) (i : Nat) :
    ∀ e ∈ (parseAssetImport line i).1, e.lineNumber = i := by
  intro e he
  simp only [parseAssetImport] at he
  split at he
  · split_ifs at he with hc1 hc2
    all_goals try dsimp only at he
    all_goals try exact absurd he (List.not_mem_nil e)
    all_goals simp only [List.mem_singleton] at he
    all_goals subst he
    all_goals rfl
  · split at he
    · split_ifs at he with hc1 hc2
      all_goals try dsimp only at he
      all_goals try exact absurd he (List.not_mem_nil e)
      all_goals simp only [List.mem_singleton] at he
      all_goals subst he
      all_goals rfl
    · split at he
      · split_ifs at he with hc1 hc2
        all_goals try dsimp only at he
        all_goals try exact absurd he (List.not_mem_nil e)
        all_goals simp only [List.mem_singleton] at he
        all_goals subst he
        all_goals rfl
      · simp at he

/-- Provenance of the dispatch chain: worker states untouched, pending
entries either survive or were inserted at the current line, asset import
events either survive or carry the current line number. -/
theorem chainRest_sources (i : Nat) (line : Str) (rest : List Str)
    (st : ParseState) (out : ParseOutput) (r : ParseState × ParseOutput)
    (hr : chainRest i line rest st out = r) :
    r.1.workerStates = st.workerStates ∧
    (∀ kv ∈ r.1.pendingImports,
       kv ∈ st.pendingImports ∨ (kv : Str × PendingImport).2.lineNumber = i) ∧
    (∀ e ∈ r.2.assetImports,
       e ∈ out.assetImports ∨ e.lineNumber = i) := by
  have hpa := parseAssetImport_lineNumber line i
  rw [chainRest] at hr
  split at hr
  · split at hr
    rename_i evs flag heq
    have hevs : evs = (parseAssetImport line i).1 := by rw [heq]
    cases flag with
    | false =>
      rw [if_neg (by simp)] at hr
      split at hr
      · subst hr
        refine ⟨rfl, ?_, ?_⟩
        · intro kv hkv
          exact alistUpsert_forall
            (fun kv0 => kv0 ∈ st.pendingImports ∨
              (kv0 : Str × PendingImport).2.lineNumber = i)
            (fun kv0 hkv0 => Or.inl hkv0) (Or.inr rfl) kv hkv
        · intro e he
          rcases List.mem_append.1 he with h | h
          · exact Or.inl h
          · exact Or.inr (hpa e (hevs ▸ h))
      · subst hr
        refine ⟨rfl, fun kv hkv => Or.inl hkv, ?_⟩
        intro e he
        rcases List.mem_append.1 he with h | h
        · exact Or.inl h
        · exact Or.inr (hpa e (hevs ▸ h))
    | true =>
      rw [if_pos rfl] at hr
      subst hr
      refine ⟨rfl, fun kv hkv => Or.inl hkv, ?_⟩
      intro e he
      rcases List.mem_append.1 he with h | h
      · exact Or.inl h
      · exact Or.inr (hpa e (hevs ▸ h))
  · repeat' split at hr
    all_goals subst hr
    all_goals exact ⟨rfl, fun kv hkv => Or.inl hkv, fun e he => Or.inl he⟩


/-- Provenance of pending resolution: worker states untouched, pendings
shrink, the one new event carries a pending entry line number. -/
theorem resolvePendingLast_sources (st : ParseState) (out : ParseOutput)
    (aid : Str) (secs : ℚ) (r : ParseState × ParseOutput)
    (hr : resolvePendingLast st out aid secs = r) :
    r.1.workerStates = st.workerStates ∧
    (∀ kv ∈ r.1.pendingImports, kv ∈ st.pendingImports) ∧
    (∀ e ∈ r.2.assetImports, e ∈ out.assetImports ∨
       ∃ kv0 ∈ st.pendingImports,
         e.lineNumber = (kv0 : Str × PendingImport).2.lineNumber) := by
  rw [resolvePendingLast] at hr
  split at hr
  · rename_i g w hlast
    split at hr
    · rename_i hg
      split at hr
      · rename_i pe hget
        subst hr
        refine ⟨rfl, ?_, ?_⟩
        · intro kv hkv
          exact alistErase_subset kv hkv
        · intro e he
          rcases List.mem_append.1 he with h | h
          · exact Or.inl h
          · simp only [List.mem_singleton] at h
            subst h
            exact Or.inr ⟨(g, pe), alistGet?_mem hget, rfl⟩
      · subst hr
        exact ⟨rfl, fun kv hkv => hkv, fun e he => Or.inl he⟩
    · subst hr
      exact ⟨rfl, fun kv hkv => hkv, fun e he => Or.inl he⟩
  · subst hr
    exact ⟨rfl, fun kv hkv => hkv, fun e he => Or.inl he⟩

/-- Provenance of the non-worker loop body. -/
theorem mainChain_sources (i : Nat) (line : Str) (rest : List Str)
    (st : ParseState) (out : ParseOutput) (r : ParseState × ParseOutput)
    (hr : mainChain i line rest st out = r) :
    r.1.workerStates = st.workerStates ∧
    (∀ kv ∈ r.1.pendingImports,
       kv ∈ st.pendingImports ∨ (kv : Str × PendingImport).2.lineNumber = i) ∧
    (∀ e ∈ r.2.assetImports, e ∈ out.assetImports ∨ e.lineNumber = i ∨
       ∃ kv0 ∈ st.pendingImports,
         e.lineNumber = (kv0 : Str × PendingImport).2.lineNumber) := by
  rw [mainChain] at hr
  split at hr
  · split at hr
    · split at hr
      · obtain ⟨hw, hp, he⟩ := resolvePendingLast_sources st out _ _ r hr
        refine ⟨hw, fun kv hkv => Or.inl (hp kv hkv), ?_⟩
        intro e hee
        rcases he e hee with h | h
        · exact Or.inl h
        · exact Or.inr (Or.inr h)
      · obtain ⟨hw, hp, he⟩ := chainRest_sources i line rest st out r hr
        refine ⟨hw, hp, ?_⟩
        intro e hee
        rcases he e hee with h | h
        · exact Or.inl h
        · exact Or.inr (Or.inl h)
    · obtain ⟨hw, hp, he⟩ := chainRest_sources i line rest st out r hr
      refine ⟨hw, hp, ?_⟩
      intro e hee
      rcases he e hee with h | h
      · exact Or.inl h
      · exact Or.inr (Or.inl h)
  · obtain ⟨hw, hp, he⟩ := chainRest_sources i line rest st out r hr
    refine ⟨hw, hp, ?_⟩
    intro e hee
    rcases he e hee with h | h
    · exact Or.inl h
    · exact Or.inr (Or.inl h)

/-- Provenance of the worker branch: stored states carry the current line
number or an existing line number, pendings untouched, the one possible
event carries a stored worker line number. -/
theorem workerHandle_sources (i num : Nat) (wline : Str) (st : ParseState)
    (out : ParseOutput) (r : ParseState × ParseOutput)
    (hr : workerHandle i num wline st out = some r) :
    (∀ kv ∈ r.1.workerStates, (kv : Nat × WorkerState).2.lineNumber = i ∨
       ∃ kv0 ∈ st.workerStates,
         (kv : Nat × WorkerState).2.lineNumber = (kv0 : Nat × WorkerState).2.lineNumber) ∧
    r.1.pendingImports = st.pendingImports ∧
    (∀ e ∈ r.2.assetImports, e ∈ out.assetImports ∨
       ∃ kv0 ∈ st.workerStates,
         e.lineNumber = (kv0 : Nat × WorkerState).2.lineNumber) := by
  simp only [workerHandle] at hr
  split at hr
  · simp only [Option.some.injEq] at hr
    subst hr
    refine ⟨?_, rfl, fun e he => Or.inl he⟩
    intro kv hkv
    refine alistUpsert_forall
      (fun kv0 => (kv0 : Nat × WorkerState).2.lineNumber = i ∨
        ∃ kv1 ∈ st.workerStates,
          (kv0 : Nat × WorkerState).2.lineNumber = (kv1 : Nat × WorkerState).2.lineNumber)
      ?_ ?_ kv hkv
    · exact fun kv0 hkv0 => Or.inr ⟨kv0, hkv0, rfl⟩
    · exact Or.inl rfl
  · split at hr
    · rename_i r2 hr2
      simp only [Option.some.injEq] at hr
      subst hr
      split at hr2
      · rename_i ws hget
        split at hr2
        · split at hr2
          · rename_i tok hm
            simp only [Option.some.injEq] at hr2
            subst hr2
            refine ⟨?_, rfl, fun e he => Or.inl he⟩
            intro kv hkv
            refine alistUpsert_forall
              (fun kv0 => (kv0 : Nat × WorkerState).2.lineNumber = i ∨
                ∃ kv1 ∈ st.workerStates,
                  (kv0 : Nat × WorkerState).2.lineNumber = (kv1 : Nat × WorkerState).2.lineNumber)
              ?_ ?_ kv hkv
            · exact fun kv0 hkv0 => Or.inr ⟨kv0, hkv0, rfl⟩
            · exact Or.inr ⟨(num, ws), alistGet?_mem hget, rfl⟩
          · exact Option.noConfusion hr2
        · exact Option.noConfusion hr2
      · exact Option.noConfusion hr2
    · split at hr
      · split at hr
        · rename_i hget0 aid secs ws hart hget
          split at hr
          · rename_i ev hev
            simp only [Option.some.injEq] at hr
            subst hr
            refine ⟨?_, rfl, ?_⟩
            · intro kv hkv
              exact Or.inr ⟨kv, alistErase_subset kv hkv, rfl⟩
            · intro e he
              rcases List.mem_append.1 he with h | h
              · exact Or.inl h
              · simp only [List.mem_singleton] at h
                subst h
                obtain ⟨-, hl, -⟩ := workerCompletionEvent_fields hev
                exact Or.inr ⟨(num, ws), alistGet?_mem hget, hl⟩
          · simp only [Option.some.injEq] at hr
            subst hr
            refine ⟨?_, rfl, fun e he => Or.inl he⟩
            intro kv hkv
            exact Or.inr ⟨kv, alistErase_subset kv hkv, rfl⟩
        · exact Option.noConfusion hr
      · exact Option.noConfusion hr

/-- Provenance of one loop iteration, combining the worker branch and the
non-worker chain. -/
theorem step_sources (i : Nat) (line : Str) (rest : List Str)
    (st : ParseState) (out : ParseOutput) :
    (∀ kv ∈ (step i line rest st out).1.workerStates,
       (kv : Nat × WorkerState).2.lineNumber = i ∨
       ∃ kv0 ∈ st.workerStates,
         (kv : Nat × WorkerState).2.lineNumber = (kv0 : Nat × WorkerState).2.lineNumber) ∧
    (∀ kv ∈ (step i line rest st out).1.pendingImports,
       kv ∈ st.pendingImports ∨ (kv : Str × PendingImport).2.lineNumber = i) ∧
    (∀ e ∈ (step i line rest st out).2.assetImports,
       e ∈ out.assetImports ∨ e.lineNumber = i ∨
       (∃ kv0 ∈ st.workerStates,
         e.lineNumber = (kv0 : Nat × WorkerState).2.lineNumber) ∨
       (∃ kv0 ∈ st.pendingImports,
         e.lineNumber = (kv0 : Str × PendingImport).2.lineNumber)) := by
  rcases hE : step i line rest st out with ⟨st2, out2⟩
  rw [step] at hE
  split at hE
  · rename_i num wline hm
    split at hE
    · rename_i r hwh
      obtain ⟨hw, hp, he⟩ := workerHandle_sources i num wline st out (st2, out2)
        (hE ▸ hwh)
      refine ⟨hw, ?_, ?_⟩
      · rw [hp]
        exact fun kv hkv => Or.inl hkv
      · intro e hee
        rcases he e hee with h | h
        · exact Or.inl h
        · exact Or.inr (Or.inr (Or.inl h))
    · obtain ⟨hw, hp, he⟩ := mainChain_sources i line rest st out (st2, out2) hE
      refine ⟨?_, hp, ?_⟩
      · intro kv hkv
        rw [hw] at hkv
        exact Or.inr ⟨kv, hkv, rfl⟩
      · intro e hee
        rcases he e hee with h | h | h
        · exact Or.inl h
        · exact Or.inr (Or.inl h)
        · exact Or.inr (Or.inr (Or.inr h))
  · obtain ⟨hw, hp, he⟩ := mainChain_sources i line rest st out (st2, out2) hE
    refine ⟨?_, hp, ?_⟩
    · intro kv hkv
      rw [hw] at hkv
      exact Or.inr ⟨kv, hkv, rfl⟩
    · intro e hee
      rcases he e hee with h | h | h
      · exact Or.inl h
      · exact Or.inr (Or.inl h)
      · exact Or.inr (Or.inr (Or.inr h))


/-- C9: a worker Start-importing line overwrites whatever state the worker
table held for that worker with the new import (path, guid, current line,
no importer), recording nothing at that step; and a replaced in-flight
asset is gone for good: from any state whose worker and pending tables
hold no entry with the replaced start line number l1, with the line
counter beyond l1, no later processing ever emits an AssetImportEvent
with line number l1 (events there trace to the tables or to the current
line, by the provenance lemmas). -/
theorem C9_worker_replacement (i : Nat) (rest : List Str) (st : ParseState)
    (out : ParseOutput) (W P2 G2 : Str) (l1 : Nat)
    (hW : W ≠ []) (hWd : ∀ c ∈ W, c.isDigit = true)
    (hP2 : P2 ≠ [])
    (hG2 : G2 ≠ []) (hG2h : ∀ c ∈ G2, isHexLower c = true)
    (hfail : ∀ j, 1 ≤ j → j < P2.length →
      guidEndTail (P2.drop j ++ (strOf " using Guid(" ++ G2 ++ strOf ")")) = none) :
    step i (workerPre W ++ startImportLine P2 G2) rest st out =
      ({ st with workerStates := (alistUpsert st.workerStates (digitsToNat W)
          ⟨P2, G2, i, none⟩) }, out) ∧
    alistGet? (alistUpsert st.workerStates (digitsToNat W) ⟨P2, G2, i, none⟩)
      (digitsToNat W) = some ⟨P2, G2, i, none⟩ ∧
    (∀ (ls : List Str) (j : Nat) (st2 : ParseState) (out2 : ParseOutput),
      l1 < j →
      (∀ kv ∈ st2.workerStates, (kv : Nat × WorkerState).2.lineNumber ≠ l1) →
      (∀ kv ∈ st2.pendingImports, (kv : Str × PendingImport).2.lineNumber ≠ l1) →
      ∀ e ∈ (processLines j ls st2 out2).2.assetImports,
        e ∈ out2.assetImports ∨ e.lineNumber ≠ l1) := by
  refine ⟨?_, alistGet?_upsert_self _ _ _, ?_⟩
  · have e1 : workerPre W ++ startImportLine P2 G2 =
        workerPre W ++ ('S' :: (strOf "tart importing " ++ P2 ++
          strOf " using Guid(" ++ G2 ++ strOf ")")) := by
      simp [startImportLine, strOf]
    have e1r : 'S' :: (strOf "tart importing " ++ P2 ++
        strOf " using Guid(" ++ G2 ++ strOf ")") = startImportLine P2 G2 := by
      simp [startImportLine, strOf]
    have hwp1 : matchWorkerPrefix (workerPre W ++ startImportLine P2 G2) =
        some (digitsToNat W, startImportLine P2 G2) := by
      rw [e1, matchWorkerPrefix_canonical W 'S' _ hW hWd (by decide), e1r]
    have hss1 : hasSub (strOf "Start importing") (startImportLine P2 G2) = true := by
      have h0 : startImportLine P2 G2 = strOf "Start importing" ++
          (' ' :: (P2 ++ strOf " using Guid(" ++ G2 ++ strOf ")")) := by
        simp [startImportLine, strOf]
      rw [h0]
      exact hasSub_self_append _ _
    have hse1 := matchStartEnd_canonical P2 G2 hP2 hG2 hG2h hfail
    simp only [step, hwp1, workerHandle, hss1, hse1, if_true]
  · intro ls
    induction ls with
    | nil =>
      intro j st2 out2 hj hws hpend e he
      exact Or.inl he
    | cons l ls ih =>
      intro j st2 out2 hj hws hpend e he
      simp only [processLines] at he
      obtain ⟨hw, hp, hev⟩ := step_sources j l ls st2 out2
      have hws2 : ∀ kv ∈ (step j l ls st2 out2).1.workerStates,
          (kv : Nat × WorkerState).2.lineNumber ≠ l1 := by
        intro kv hkv
        rcases hw kv hkv with h2 | ⟨kv0, hkv0, hl⟩
        · rw [h2]
          exact (Nat.ne_of_lt hj).symm
        · rw [hl]
          exact hws kv0 hkv0
      have hpend2 : ∀ kv ∈ (step j l ls st2 out2).1.pendingImports,
          (kv : Str × PendingImport).2.lineNumber ≠ l1 := by
        intro kv hkv
        rcases hp kv hkv with h2 | h2
        · exact hpend kv h2
        · rw [h2]
          exact (Nat.ne_of_lt hj).symm
      rcases ih (j + 1) (step j l ls st2 out2).1 (step j l ls st2 out2).2
          (Nat.lt_succ_of_lt hj) hws2 hpend2 e he with h | h
      · rcases hev e h with h2 | h2 | h2 | h2
        · exact Or.inl h2
        · refine Or.inr ?_
          rw [h2]
          exact (Nat.ne_of_lt hj).symm
        · obtain ⟨kv0, hkv0, hl⟩ := h2
          exact Or.inr (hl ▸ hws kv0 hkv0)
        · obtain ⟨kv0, hkv0, hl⟩ := h2
          exact Or.inr (hl ▸ hpend kv0 hkv0)
      · exact Or.inr h


/-- Witness for C9_worker_replacement: worker 7 with an import started at
line 1 gets it replaced at line 2. -/
theorem C9_worker_replacement_witness :
    step 2 (workerPre (strOf "7") ++ startImportLine (strOf "b.png") (strOf "ff")) []
      { initState with workerStates :=
          [(7, { assetPath := strOf "a.png", guid := strOf "aa",
                 lineNumber := 1, importerType := none })] } emptyOutput =
      ({ { initState with workerStates :=
            [(7, { assetPath := strOf "a.png", guid := strOf "aa",
                   lineNumber := 1, importerType := none })] } with
          workerStates := (alistUpsert
            ([(7, { assetPath := strOf "a.png", guid := strOf "aa",
                    lineNumber := 1, importerType := none })] :
              List (Nat × WorkerState))
            (digitsToNat (strOf "7")) ⟨strOf "b.png", strOf "ff", 2, none⟩) },
        emptyOutput) ∧
    alistGet? (alistUpsert
        ([(7, { assetPath := strOf "a.png", guid := strOf "aa",
                lineNumber := 1, importerType := none })] :
          List (Nat × WorkerState))
        (digitsToNat (strOf "7")) ⟨strOf "b.png", strOf "ff", 2, none⟩)
      (digitsToNat (strOf "7")) =
      some (⟨strOf "b.png", strOf "ff", 2, none⟩ : WorkerState) ∧
    (∀ (ls : List Str) (j : Nat) (st2 : ParseState) (out2 : ParseOutput),
      1 < j →
      (∀ kv ∈ st2.workerStates, (kv : Nat × WorkerState).2.lineNumber ≠ 1) →
      (∀ kv ∈ st2.pendingImports, (kv : Str × PendingImport).2.lineNumber ≠ 1) →
      ∀ e ∈ (processLines j ls st2 out2).2.assetImports,
        e ∈ out2.assetImports ∨ e.lineNumber ≠ 1) :=
  C9_worker_replacement 2 []
    { initState with workerStates :=
        [(7, { assetPath := strOf "a.png", guid := strOf "aa",
               lineNumber := 1, importerType := none })] }
    emptyOutput (strOf "7") (strOf "b.png") (strOf "ff") 1
    (by decide) (by decide) (by decide) (by decide) (by decide)
    (by
      intro j h1 h2
      rw [show (strOf "b.png").length = 5 from rfl] at h2
      interval_cases j <;> decide)

end ULog
